import Mathlib

/-!
# Verification of the 3d-webgallery grab/release/throw core

Shallow embedding of the grab state machine, frame synchronizer, velocity
tracker, object registry and intersection resolution of `src/main.ts`
(three.js / cannon-es WebXR gallery), with proofs of the specified
properties.

Scalars are exact rationals; orientations are rational quaternions;
re-parenting with world-transform preservation (`Object3D.attach`) is
modelled by composing with the inverse of the new parent's world
transform.  JavaScript division by zero (the unguarded
`divideScalar(deltaTime)` in the velocity tracker) is modelled explicitly
with IEEE-style Infinity/NaN values.
-/

namespace Gallery

/-- 3-vector over ℚ (three.js `Vector3` / cannon-es `Vec3` with exact scalars). -/
structure V3 where
  x : ℚ
  y : ℚ
  z : ℚ
deriving DecidableEq, Repr

namespace V3

def add (a b : V3) : V3 := ⟨a.x + b.x, a.y + b.y, a.z + b.z⟩

def sub (a b : V3) : V3 := ⟨a.x - b.x, a.y - b.y, a.z - b.z⟩

def neg (a : V3) : V3 := ⟨-a.x, -a.y, -a.z⟩

def zero : V3 := ⟨0, 0, 0⟩

end V3

/-- Quaternion over ℚ (three.js `Quaternion` / cannon-es `Quaternion`). -/
structure Quat where
  x : ℚ
  y : ℚ
  z : ℚ
  w : ℚ
deriving DecidableEq, Repr

namespace Quat

/-- Hamilton product. -/
def mul (a b : Quat) : Quat :=
  ⟨a.w * b.x + a.x * b.w + a.y * b.z - a.z * b.y,
   a.w * b.y - a.x * b.z + a.y * b.w + a.z * b.x,
   a.w * b.z + a.x * b.y - a.y * b.x + a.z * b.w,
   a.w * b.w - a.x * b.x - a.y * b.y - a.z * b.z⟩

def conj (a : Quat) : Quat := ⟨-a.x, -a.y, -a.z, a.w⟩

def normSq (a : Quat) : ℚ := a.x ^ 2 + a.y ^ 2 + a.z ^ 2 + a.w ^ 2

def id : Quat := ⟨0, 0, 0, 1⟩

end Quat

/-- Rotate a vector by a quaternion: the vector part of `q · (v,0) · q*`.
For a unit quaternion this is the usual rotation action. -/
def rotate (q : Quat) (v : V3) : V3 :=
  let p := Quat.mul (Quat.mul q ⟨v.x, v.y, v.z, 0⟩) (Quat.conj q)
  ⟨p.x, p.y, p.z⟩

theorem rotate_add (q : Quat) (a b : V3) :
    rotate q (V3.add a b) = V3.add (rotate q a) (rotate q b) := by
  cases q; cases a; cases b
  simp only [rotate, Quat.mul, Quat.conj, V3.add, V3.mk.injEq]
  refine ⟨by ring, by ring, by ring⟩

theorem rotate_neg (q : Quat) (a : V3) :
    rotate q (V3.neg a) = V3.neg (rotate q a) := by
  cases q; cases a
  simp only [rotate, Quat.mul, Quat.conj, V3.neg, V3.mk.injEq]
  refine ⟨by ring, by ring, by ring⟩

theorem rotate_mul (p q : Quat) (v : V3) :
    rotate (Quat.mul p q) v = rotate p (rotate q v) := by
  cases p; cases q; cases v
  simp only [rotate, Quat.mul, Quat.conj, V3.mk.injEq]
  refine ⟨by ring, by ring, by ring⟩

theorem mul_conj_self (q : Quat) :
    Quat.mul q (Quat.conj q) = ⟨0, 0, 0, Quat.normSq q⟩ := by
  cases q
  simp only [Quat.mul, Quat.conj, Quat.normSq, Quat.mk.injEq]
  refine ⟨by ring, by ring, by ring, by ring⟩

theorem rotate_scalar (s : ℚ) (v : V3) :
    rotate ⟨0, 0, 0, s⟩ v = ⟨s ^ 2 * v.x, s ^ 2 * v.y, s ^ 2 * v.z⟩ := by
  cases v
  simp only [rotate, Quat.mul, Quat.conj, V3.mk.injEq]
  refine ⟨by ring, by ring, by ring⟩

theorem mul_id_left (q : Quat) : Quat.mul Quat.id q = q := by
  cases q
  simp only [Quat.mul, Quat.id, Quat.mk.injEq]
  refine ⟨by ring, by ring, by ring, by ring⟩

theorem mul_assoc_q (a b c : Quat) :
    Quat.mul (Quat.mul a b) c = Quat.mul a (Quat.mul b c) := by
  cases a; cases b; cases c
  simp only [Quat.mul, Quat.mk.injEq]
  refine ⟨by ring, by ring, by ring, by ring⟩

/-- Rigid transform: position + orientation (a three.js world matrix
restricted to the rigid part, as used throughout the grab code). -/
structure Transform where
  pos : V3
  quat : Quat
deriving DecidableEq, Repr

namespace Transform

/-- Composition of rigid transforms (parent ∘ child, as in scene-graph
world-matrix accumulation). -/
def comp (t u : Transform) : Transform :=
  ⟨V3.add t.pos (rotate t.quat u.pos), Quat.mul t.quat u.quat⟩

/-- Inverse of a rigid transform with a unit orientation quaternion
(the matrix inverse three.js computes inside `Object3D.attach`). -/
def inv (t : Transform) : Transform :=
  ⟨rotate (Quat.conj t.quat) (V3.neg t.pos), Quat.conj t.quat⟩

def id : Transform := ⟨V3.zero, Quat.id⟩

end Transform

/-- Re-parenting preserves the world transform: composing a unit-quaternion
parent transform with `inv parent ∘ world` gives back `world`.  This is the
algebraic content of `Object3D.attach`. -/
theorem comp_inv_cancel (t u : Transform) (h : Quat.normSq t.quat = 1) :
    Transform.comp t (Transform.comp (Transform.inv t) u) = u := by
  cases t with
  | mk p q =>
    cases u with
    | mk up uq =>
      simp only [Transform.comp, Transform.inv, Transform.mk.injEq] at *
      refine ⟨?_, ?_⟩
      · show V3.add p (rotate q (V3.add (rotate (Quat.conj q) (V3.neg p))
          (rotate (Quat.conj q) up))) = up
        rw [rotate_add, ← rotate_mul, ← rotate_mul, mul_conj_self, h,
          rotate_scalar, rotate_scalar]
        cases p; cases up
        simp only [V3.add, V3.neg, V3.mk.injEq]
        refine ⟨by ring, by ring, by ring⟩
      · show Quat.mul q (Quat.mul (Quat.conj q) uq) = uq
        rw [← mul_assoc_q, mul_conj_self, h]
        cases uq
        simp only [Quat.mul, Quat.mk.injEq]
        refine ⟨by ring, by ring, by ring, by ring⟩

/-! ## JavaScript numbers for the velocity pipeline

The velocity tracker divides a frame displacement by `deltaTime` with no
guard (`divideScalar(deltaTime)`).  In JavaScript, `x / 0` is `±Infinity`
for `x ≠ 0` and `NaN` for `x = 0`, so the components of a velocity
estimate are rationals extended with those special values. -/

inductive JSNum where
  | fin (q : ℚ)
  | posInf
  | negInf
  | nan
deriving DecidableEq, Repr

/-- JavaScript division of a finite numerator by a nonnegative finite
denominator (the only division the source performs). -/
def jsDiv (x d : ℚ) : JSNum :=
  if d = 0 then
    (if 0 < x then .posInf else if x < 0 then .negInf else .nan)
  else .fin (x / d)

/-- 3-vector whose components are JavaScript numbers (velocity values). -/
structure V3J where
  x : JSNum
  y : JSNum
  z : JSNum
deriving DecidableEq, Repr

def V3J.zero : V3J := ⟨.fin 0, .fin 0, .fin 0⟩

/-- `currentVel.copy(controller.position).sub(lastPos).divideScalar(deltaTime)`. -/
def jsVelocity (cur last : V3) (dt : ℚ) : V3J :=
  ⟨jsDiv (cur.x - last.x) dt, jsDiv (cur.y - last.y) dt, jsDiv (cur.z - last.z) dt⟩

theorem jsVelocity_pos (cur last : V3) (dt : ℚ) (h : dt ≠ 0) :
    jsVelocity cur last dt =
      ⟨.fin ((cur.x - last.x) / dt), .fin ((cur.y - last.y) / dt),
       .fin ((cur.z - last.z) / dt)⟩ := by
  simp [jsVelocity, jsDiv, h]

theorem jsVelocity_zero_dt (cur : V3) :
    jsVelocity cur cur 0 = ⟨.nan, .nan, .nan⟩ := by
  simp [jsVelocity, jsDiv]

/-! ## Visual scene-graph trees and the object registry

Each loaded model is a tree of `Object3D` nodes.  `physicsMap` maps the
model's own uuid, and the uuid of every descendant mesh, to the model's
physics body (bodies are identified here by their index in the parallel
`physicsBodies` array). -/

/-- A visual scene-graph node: uuid, whether it `isMesh`, and children. -/
inductive VNode where
  | mk (uuid : Nat) (isMesh : Bool) (children : List VNode)

def VNode.uuid : VNode → Nat
  | .mk u _ _ => u

def VNode.isMesh : VNode → Bool
  | .mk _ m _ => m

def VNode.children : VNode → List VNode
  | .mk _ _ cs => cs

mutual

/-- All uuids occurring in a tree (every node, once per node). -/
def allU : VNode → List Nat
  | .mk u _ cs => u :: allUL cs

def allUL : List VNode → List Nat
  | [] => []
  | c :: cs => allU c ++ allUL cs

end

mutual

/-- Uuids of the mesh nodes of a tree (`model.traverse` + `isMesh` filter). -/
def allMesh : VNode → List Nat
  | .mk u m cs => (if m then [u] else []) ++ allMeshL cs

def allMeshL : List VNode → List Nat
  | [] => []
  | c :: cs => allMesh c ++ allMeshL cs

end

/-- The uuids a model contributes to `physicsMap`: the model's own uuid
plus every descendant mesh uuid. -/
def mappedU (t : VNode) : List Nat := t.uuid :: allMesh t

/-- Index of the first list element satisfying `p` (JavaScript
`Array.prototype.find`, returning the index). -/
def firstIdx (p : α → Prop) [DecidablePred p] : List α → Option Nat
  | [] => none
  | a :: t => if p a then some 0 else (firstIdx p t).map (· + 1)

/-- `physicsMap.get(u)`: the body (index) registered for uuid `u`, if any. -/
def physicsMapGet (ents : List VNode) (u : Nat) : Option Nat :=
  firstIdx (fun e => u ∈ mappedU e) ents

/-- `visualMeshes.find(mesh => mesh.uuid === u ||
mesh.children.some(child => child.uuid === u))`, returning the index. -/
def findVisualMesh (ents : List VNode) (u : Nat) : Option Nat :=
  firstIdx (fun e => e.uuid = u ∨ u ∈ e.children.map VNode.uuid) ents

/-- The `while (intersectedObject)` walk of `onGrabStart`, applied to the
uuid chain from the hit node up through its ancestors: at each node look
up the body in `physicsMap`; if found, also look for the top-level visual
mesh; break with both on success, else continue with the parent. -/
def resolveChain (ents : List VNode) : List Nat → Option (Nat × Nat)
  | [] => none
  | u :: rest =>
    match physicsMapGet ents u with
    | some b =>
      match findVisualMesh ents u with
      | some j => some (j, b)
      | none => resolveChain ents rest
    | none => resolveChain ents rest

/-! ## Program state

Module-level mutable state of `main.ts`: the parallel
`visualMeshes` / `physicsBodies` / `initialTransforms` arrays, the three
per-controller `Map`s, and the teleport-aim flag.  Controllers are direct
children of the scene, so a controller's world transform equals its
tracked pose, supplied externally each frame as `poses : Ctrl → Transform`. -/

/-- The two XR controllers (`controller1`, `controller2`). -/
inductive Ctrl where
  | one
  | two
deriving DecidableEq, Repr

def Ctrl.other : Ctrl → Ctrl
  | .one => .two
  | .two => .one

/-- cannon-es body modes (`Body.DYNAMIC` / `Body.STATIC` / `Body.KINEMATIC`). -/
inductive BodyType where
  | dynamic
  | static
  | kinematic
deriving DecidableEq, Repr

/-- A cannon-es rigid body (the fields the grab core reads or writes). -/
structure Body where
  type : BodyType
  position : V3
  quaternion : Quat
  velocity : V3J
  angularVelocity : V3J
  awake : Bool
deriving DecidableEq, Repr

/-- Parent slot of a top-level model node: the scene, or a controller it
was `attach`ed to. -/
inductive MParent where
  | scene
  | ctrl (c : Ctrl)
deriving DecidableEq, Repr

/-- Dynamic scene-graph state of one top-level model: its parent and its
local transform (world = parent's world ∘ local). -/
structure MeshNode where
  parent : MParent
  localT : Transform
deriving DecidableEq, Repr

/-- One entry of the `grabbedObjects` map: the held object and body,
both as indices into the parallel arrays. -/
structure GrabRec where
  obj : Nat
  body : Nat
deriving DecidableEq, Repr

/-- Initial body transform recorded at load time for `resetObjects`. -/
structure InitialTransform where
  position : V3
  quaternion : Quat
deriving DecidableEq, Repr

structure State where
  modelTrees : List VNode
  physicsBodies : List Body
  visualMeshes : List MeshNode
  initialTransforms : List InitialTransform
  grabbedObjects : Ctrl → Option GrabRec
  controllerLastPosition : Ctrl → Option V3
  controllerVelocity : Ctrl → Option V3J
  isTeleportAiming : Bool

/-- Point update of a controller-keyed map. -/
def updC (f : Ctrl → α) (c : Ctrl) (a : α) : Ctrl → α :=
  fun c2 => if c2 = c then a else f c2

/-- Apply `f` to the element at index `i` (in-place mutation of one array
slot). -/
def setAt (l : List α) (i : Nat) (f : α → α) : List α :=
  match l, i with
  | [], _ => []
  | a :: t, 0 => f a :: t
  | a :: t, n + 1 => a :: setAt t n f

/-- World transform of a top-level model node. -/
def worldOfMesh (poses : Ctrl → Transform) (m : MeshNode) : Transform :=
  match m.parent with
  | .scene => m.localT
  | .ctrl c => Transform.comp (poses c) m.localT

/-- Does some controller's grab record reference body `k`?  (The
`grabbed.body === targetBody` scans in `onGrabStart` and the sync loop.) -/
def bodyHeld (g1 g2 : Option GrabRec) (k : Nat) : Bool :=
  (match g1 with
   | some g => g.body == k
   | none => false) ||
  (match g2 with
   | some g => g.body == k
   | none => false)

/-- `onGrabStart` (selectstart): teleport-aim gate, re-entrancy guard,
ray resolution, mutual-exclusion check, then grab: record, make the body
kinematic with zeroed velocities, `controller.attach` the model
(preserving world transform), and initialize velocity tracking.
`hit` is the uuid chain from the nearest raycast hit node up through its
ancestors (`none` when the ray hits nothing). -/
def onGrabStart (s : State) (c : Ctrl) (poses : Ctrl → Transform)
    (hit : Option (List Nat)) : State :=
  if c = Ctrl.one ∧ s.isTeleportAiming then s
  else if (s.grabbedObjects c).isSome then s
  else
    match hit with
    | none => s
    | some chain =>
      match resolveChain s.modelTrees chain with
      | none => s
      | some (j, k) =>
        if bodyHeld (s.grabbedObjects Ctrl.one) (s.grabbedObjects Ctrl.two) k then s
        else
          { s with
            grabbedObjects := updC s.grabbedObjects c (some ⟨j, k⟩),
            physicsBodies := setAt s.physicsBodies k (fun b =>
              { b with type := .kinematic, velocity := V3J.zero,
                       angularVelocity := V3J.zero }),
            visualMeshes := setAt s.visualMeshes j (fun m =>
              { parent := .ctrl c,
                localT := Transform.comp (Transform.inv (poses c))
                  (worldOfMesh poses m) }),
            controllerLastPosition := updC s.controllerLastPosition c
              (some (poses c).pos),
            controllerVelocity := updC s.controllerVelocity c (some V3J.zero) }

/-- `onGrabEnd` (selectend): `scene.attach` the model back (preserving
world transform), make the body dynamic and wake it, apply the tracked
controller velocity, and destroy the controller's grab state. -/
def onGrabEnd (s : State) (c : Ctrl) (poses : Ctrl → Transform) : State :=
  match s.grabbedObjects c with
  | none => s
  | some g =>
    { s with
      visualMeshes := setAt s.visualMeshes g.obj (fun m =>
        { parent := .scene, localT := worldOfMesh poses m }),
      physicsBodies := setAt s.physicsBodies g.body (fun b =>
        { b with type := .dynamic, awake := true,
                 velocity := match s.controllerVelocity c with
                   | some v => v
                   | none => b.velocity }),
      grabbedObjects := updC s.grabbedObjects c none,
      controllerLastPosition := updC s.controllerLastPosition c none,
      controllerVelocity := updC s.controllerVelocity c none }

/-- Second half of the per-controller held-object block: if the held
body is kinematic, write the controller's world transform into it. -/
def updateHeldKin (s : State) (g : GrabRec) (pose : Transform) : State :=
  match s.physicsBodies.get? g.body with
  | some b =>
    if b.type = BodyType.kinematic then
      { s with physicsBodies := setAt s.physicsBodies g.body (fun bb =>
          { bb with position := pose.pos, quaternion := pose.quat }) }
    else s
  | none => s

/-- Per-controller block of the `grabbedObjects.forEach` in `animate`:
update the finite-difference velocity estimate (unguarded division by
`deltaTime`), refresh the last-sampled position, and push the
controller's world transform into the held kinematic body. -/
def updateHeld (s : State) (c : Ctrl) (dt : ℚ)
    (poses : Ctrl → Transform) : State :=
  match s.grabbedObjects c with
  | none => s
  | some g =>
    match s.controllerLastPosition c, s.controllerVelocity c with
    | some lastPos, some _ =>
      updateHeldKin
        { s with
          controllerVelocity := updC s.controllerVelocity c
            (some (jsVelocity (poses c).pos lastPos dt)),
          controllerLastPosition := updC s.controllerLastPosition c
            (some (poses c).pos) }
        g (poses c)
    | _, _ => s

/-- The `for` loop at the end of `animate`: copy each body's transform
into its visual mesh unless the body is held or kinematic.  `i` is the
running array index. -/
def syncFrom (held : Nat → Bool) (bodies : List Body)
    (meshes : List MeshNode) (i : Nat) : List MeshNode :=
  match bodies, meshes with
  | b :: bs, m :: ms =>
      (if held i = false ∧ b.type ≠ BodyType.kinematic
       then { m with localT := ⟨b.position, b.quaternion⟩ }
       else m) :: syncFrom held bs ms (i + 1)
  | _, ms => ms

/-- One run of `animate`: advance physics (the cannon-es step is the
opaque collaborator `phys`), then — when presenting — run the held-object
block for each controller, else zero every tracked velocity, then run the
visual-sync loop. -/
def animate (s : State) (dt : ℚ) (poses : Ctrl → Transform)
    (phys : List Body → List Body) (isPresenting : Bool) : State :=
  let s1 : State := { s with physicsBodies := phys s.physicsBodies }
  let s2 :=
    if isPresenting then
      updateHeld (updateHeld s1 .one dt poses) .two dt poses
    else
      { s1 with controllerVelocity := fun c =>
          (s1.controllerVelocity c).map (fun _ => V3J.zero) }
  let held := bodyHeld (s2.grabbedObjects Ctrl.one) (s2.grabbedObjects Ctrl.two)
  { s2 with visualMeshes := syncFrom held s2.physicsBodies s2.visualMeshes 0 }

/-- First loop of `resetObjects`: restore each body's initial transform,
zero its velocities and wake it (guarded by `initialTransforms[index]`). -/
def resetBodies : List Body → List InitialTransform → List Body
  | [], _ => []
  | b :: bs, [] => b :: resetBodies bs []
  | b :: bs, i :: is2 =>
      { b with position := i.position, quaternion := i.quaternion,
               velocity := V3J.zero, angularVelocity := V3J.zero,
               awake := true } :: resetBodies bs is2

/-- Second loop of `resetObjects`, for one controller's grab record:
`scene.attach` the held model and force its body dynamic. -/
def detachHeld (s : State) (c : Ctrl) (poses : Ctrl → Transform) : State :=
  match s.grabbedObjects c with
  | none => s
  | some g =>
    { s with
      visualMeshes := setAt s.visualMeshes g.obj (fun m =>
        { parent := .scene, localT := worldOfMesh poses m }),
      physicsBodies := setAt s.physicsBodies g.body (fun b =>
        { b with type := .dynamic }) }

/-- `resetObjects`: restore all bodies from the snapshot, then detach any
held models and force their bodies dynamic, then clear all grab state. -/
def resetObjects (s : State) (poses : Ctrl → Transform) : State :=
  let s1 : State := { s with
    physicsBodies := resetBodies s.physicsBodies s.initialTransforms }
  let s2 := detachHeld (detachHeld s1 .one poses) .two poses
  { s2 with
    grabbedObjects := fun _ => none,
    controllerLastPosition := fun _ => none,
    controllerVelocity := fun _ => none }

/-- The `sessionend` listener: clear the three controller maps and the
teleport-aim flag.  Nothing else is touched. -/
def sessionEnd (s : State) : State :=
  { s with
    grabbedObjects := fun _ => none,
    controllerLastPosition := fun _ => none,
    controllerVelocity := fun _ => none,
    isTeleportAiming := false }

/-! ## Basic lemmas about the state helpers -/

theorem updC_self (f : Ctrl → α) (c : Ctrl) (a : α) : updC f c a c = a := by
  simp [updC]

theorem updC_ne (f : Ctrl → α) (c : Ctrl) (a : α) {c2 : Ctrl} (h : c2 ≠ c) :
    updC f c a c2 = f c2 := by
  simp [updC, h]

theorem setAt_length (l : List α) (i : Nat) (f : α → α) :
    (setAt l i f).length = l.length := by
  induction l generalizing i with
  | nil => rfl
  | cons a t ih =>
    cases i with
    | zero => rfl
    | succ n => simp [setAt, ih]

theorem get?_setAt_self (l : List α) (i : Nat) (f : α → α) :
    (setAt l i f).get? i = (l.get? i).map f := by
  induction l generalizing i with
  | nil => cases i <;> rfl
  | cons a t ih =>
    cases i with
    | zero => rfl
    | succ n => simpa [setAt] using ih n

theorem get?_setAt_ne (l : List α) (i : Nat) (f : α → α) {j : Nat} (h : j ≠ i) :
    (setAt l i f).get? j = l.get? j := by
  induction l generalizing i j with
  | nil => cases i <;> rfl
  | cons a t ih =>
    cases i with
    | zero =>
      cases j with
      | zero => exact absurd rfl h
      | succ m => rfl
    | succ n =>
      cases j with
      | zero => rfl
      | succ m => simpa [setAt] using ih n (by omega)

theorem get?_syncFrom (held : Nat → Bool) (bodies : List Body)
    (meshes : List MeshNode) (i j : Nat) :
    (syncFrom held bodies meshes i).get? j =
      match meshes.get? j with
      | none => none
      | some m =>
        match bodies.get? j with
        | none => some m
        | some b =>
          some (if held (i + j) = false ∧ b.type ≠ BodyType.kinematic
                then { m with localT := ⟨b.position, b.quaternion⟩ }
                else m) := by
  induction bodies generalizing meshes i j with
  | nil =>
    cases meshes with
    | nil => cases j <;> rfl
    | cons m ms =>
      cases j with
      | zero => rfl
      | succ n =>
        simp only [syncFrom, List.get?]
        cases ms.get? n <;> rfl
  | cons b bs ih =>
    cases meshes with
    | nil => cases j <;> rfl
    | cons m ms =>
      cases j with
      | zero => simp [syncFrom]
      | succ n =>
        have := ih ms (i + 1) n
        simp only [syncFrom, List.get?]
        rw [this]
        have harith : i + 1 + n = i + (n + 1) := by omega
        rw [harith]

theorem get?_resetBodies (bodies : List Body) (inits : List InitialTransform)
    (j : Nat) :
    (resetBodies bodies inits).get? j =
      match bodies.get? j with
      | none => none
      | some b =>
        some (match inits.get? j with
              | none => b
              | some it =>
                { b with position := it.position, quaternion := it.quaternion,
                         velocity := V3J.zero, angularVelocity := V3J.zero,
                         awake := true }) := by
  induction bodies generalizing inits j with
  | nil => cases j <;> rfl
  | cons b bs ih =>
    cases inits with
    | nil =>
      cases j with
      | zero => rfl
      | succ n =>
        have := ih [] n
        simpa [resetBodies] using this
    | cons it its =>
      cases j with
      | zero => rfl
      | succ n => simpa [resetBodies] using ih its n

/-- `a` occurs as a subtree of `t`. -/
inductive Sub : VNode → VNode → Prop where
  | refl (t : VNode) : Sub t t
  | step {a k t : VNode} : Sub a k → k ∈ t.children → Sub a t

/-- `Desc t ch` says `ch` is an upward ancestor chain inside the tree `t`:
`ch = [n, parent n, …, t]` with each element a child of the next. -/
inductive Desc (t : VNode) : List VNode → Prop where
  | refl : Desc t [t]
  | step {c p : VNode} {rest : List VNode} :
      Desc t (p :: rest) → c ∈ p.children → Desc t (c :: p :: rest)

/-! ## Registry well-formedness and resolution lemmas

`WFreg ents` says all uuids across all model trees are distinct — true of
three.js uuid generation, and the hypothesis under which the
`onGrabStart` ancestor walk is proved correct. -/

def WFreg (ents : List VNode) : Prop := (allUL ents).Nodup

theorem allU_eq (t : VNode) : allU t = t.uuid :: allUL t.children := by
  cases t; rfl

theorem allMesh_eq (t : VNode) :
    allMesh t = (if t.isMesh then [t.uuid] else []) ++ allMeshL t.children := by
  cases t; rfl

theorem uuid_mem_allU (t : VNode) : t.uuid ∈ allU t := by
  rw [allU_eq]; exact List.mem_cons_self _ _

theorem mem_allUL_of {cs : List VNode} {k : VNode} (hk : k ∈ cs) {v : Nat}
    (hv : v ∈ allU k) : v ∈ allUL cs := by
  induction cs with
  | nil => cases hk
  | cons a rest ih =>
    rcases List.mem_cons.mp hk with h | h
    · subst h
      exact List.mem_append_left _ hv
    · exact List.mem_append_right _ (ih h)

theorem mem_allMeshL_of {cs : List VNode} {k : VNode} (hk : k ∈ cs) {v : Nat}
    (hv : v ∈ allMesh k) : v ∈ allMeshL cs := by
  induction cs with
  | nil => cases hk
  | cons a rest ih =>
    rcases List.mem_cons.mp hk with h | h
    · subst h
      exact List.mem_append_left _ hv
    · exact List.mem_append_right _ (ih h)

mutual

theorem allMesh_sub_allU : ∀ t : VNode, ∀ v : Nat, v ∈ allMesh t → v ∈ allU t
  | .mk u m cs => by
    intro v hv
    simp only [allMesh, allU] at *
    rcases List.mem_append.mp hv with h | h
    · rcases m with _ | _ <;> simp_all
    · exact List.mem_cons_of_mem _ (allMeshL_sub_allUL cs v h)

theorem allMeshL_sub_allUL : ∀ cs : List VNode, ∀ v : Nat,
    v ∈ allMeshL cs → v ∈ allUL cs
  | [] => by intro v hv; cases hv
  | c :: cs => by
    intro v hv
    simp only [allMeshL, allUL] at *
    rcases List.mem_append.mp hv with h | h
    · exact List.mem_append_left _ (allMesh_sub_allU c v h)
    · exact List.mem_append_right _ (allMeshL_sub_allUL cs v h)

end

theorem subU {c t : VNode} (h : Sub c t) : c.uuid ∈ allU t := by
  induction h with
  | refl => exact uuid_mem_allU _
  | step _ hk ih =>
    rw [allU_eq]
    exact List.mem_cons_of_mem _ (mem_allUL_of hk ih)

theorem sub_trans {a b c : VNode} (h1 : Sub a b) (h2 : Sub b c) : Sub a c := by
  induction h2 with
  | refl => exact h1
  | step _ hk ih => exact Sub.step ih hk

theorem sub_of_child {c p : VNode} (h : c ∈ p.children) : Sub c p :=
  Sub.step (Sub.refl c) h

theorem mesh_mem_allMesh {c t : VNode} (h : Sub c t) (hm : c.isMesh = true) :
    c.uuid ∈ allMesh t := by
  induction h with
  | refl =>
    rw [allMesh_eq, hm]
    exact List.mem_append_left _ (List.mem_singleton.mpr rfl)
  | step _ hk ih =>
    rw [allMesh_eq]
    exact List.mem_append_right _ (mem_allMeshL_of hk ih)

/-- `Desc t [x]` forces `x = t`. -/
theorem desc_single {t x : VNode} (h : Desc t [x]) : x = t := by
  cases h
  rfl

/-- The tail of a `Desc` chain is again a `Desc` chain. -/
theorem desc_tail {t c p : VNode} {rest : List VNode}
    (h : Desc t (c :: p :: rest)) : Desc t (p :: rest) ∧ c ∈ p.children := by
  cases h with
  | step hd hc => exact ⟨hd, hc⟩

/-- A chain of length ≥ 2 starts strictly inside some direct child of `t`. -/
theorem desc_strict {t : VNode} :
    ∀ {ch : List VNode}, Desc t ch → ∀ {c p : VNode} {rest : List VNode},
      ch = c :: p :: rest → ∃ k ∈ t.children, Sub c k := by
  intro ch h
  induction h with
  | refl =>
    intro c p rest heq
    cases heq
  | step hd hc ih =>
    intro c p rest heq
    injection heq with e1 e2
    injection e2 with e21 e22
    subst e1
    subst e21
    subst e22
    cases hd with
    | refl => exact ⟨_, hc, Sub.refl _⟩
    | step hd2 hc2 =>
      obtain ⟨k, hk, hsub⟩ := ih rfl
      exact ⟨k, hk, sub_trans (sub_of_child hc) hsub⟩

theorem childU {p k : VNode} (h : Sub p k) :
    ∀ c : VNode, c ∈ p.children → c.uuid ∈ allUL k.children := by
  induction h with
  | refl => exact fun c hc => mem_allUL_of hc (uuid_mem_allU c)
  | step _ hk ih =>
    intro c hc
    exact mem_allUL_of hk
      (by rw [allU_eq]; exact List.mem_cons_of_mem _ (ih c hc))

/-! ### Nodup decomposition lemmas -/

theorem nodup_allU_of_mem {cs : List VNode} (h : (allUL cs).Nodup)
    {k : VNode} (hk : k ∈ cs) : (allU k).Nodup := by
  induction cs with
  | nil => cases hk
  | cons a rest ih =>
    simp only [allUL] at h
    rw [List.nodup_append] at h
    rcases List.mem_cons.mp hk with he | he
    · subst he; exact h.1
    · exact ih h.2.1 he

theorem nodup_allU_get {l : List VNode} (h : (allUL l).Nodup) {i : Nat}
    {t : VNode} (ht : l.get? i = some t) : (allU t).Nodup :=
  nodup_allU_of_mem h (List.get?_mem ht)

theorem nodup_children {t : VNode} (h : (allU t).Nodup) :
    (allUL t.children).Nodup := by
  rw [allU_eq, List.nodup_cons] at h
  exact h.2

/-- In a duplicate-free forest, a uuid determines the tree containing it. -/
theorem allU_inj {cs : List VNode} (h : (allUL cs).Nodup) {k k2 : VNode}
    (hk : k ∈ cs) (hk2 : k2 ∈ cs) {v : Nat} (hv : v ∈ allU k)
    (hv2 : v ∈ allU k2) : k = k2 := by
  induction cs with
  | nil => cases hk
  | cons a rest ih =>
    simp only [allUL] at h
    rw [List.nodup_append] at h
    rcases List.mem_cons.mp hk with he | he <;>
      rcases List.mem_cons.mp hk2 with he2 | he2
    · subst he; subst he2; rfl
    · subst he
      exact absurd (mem_allUL_of he2 hv2) (h.2.2 hv)
    · subst he2
      exact absurd (mem_allUL_of he hv) (h.2.2 hv2)
    · exact ih h.2.1 he he2

/-- Index-level disjointness: distinct positions in a duplicate-free
forest have disjoint uuid sets. -/
theorem allU_disjoint_get {l : List VNode} (h : (allUL l).Nodup) :
    ∀ {i j : Nat} {t e : VNode}, l.get? i = some t → l.get? j = some e →
      i ≠ j → ∀ v ∈ allU t, v ∉ allU e := by
  induction l with
  | nil => intro i j t e hi; cases i <;> cases hi
  | cons a rest ih =>
    intro i j t e hi hj hij v hv
    simp only [allUL] at h
    rw [List.nodup_append] at h
    cases i with
    | zero =>
      cases hi
      cases j with
      | zero => exact absurd rfl hij
      | succ m =>
        intro hve
        have hj2 : rest.get? m = some e := hj
        exact h.2.2 hv (mem_allUL_of (List.get?_mem hj2) hve)
    | succ n =>
      cases j with
      | zero =>
        cases hj
        intro hve
        have hi2 : rest.get? n = some t := hi
        exact h.2.2 hve (mem_allUL_of (List.get?_mem hi2) hv)
      | succ m =>
        exact ih h.2.1 hi hj (by omega) v hv

/-- Within one child's subtree, a uuid found among the forest's mesh
uuids belongs to that child's own mesh uuids. -/
theorem mem_allMesh_of_child {cs : List VNode} (hn : (allUL cs).Nodup)
    {k : VNode} (hk : k ∈ cs) {v : Nat} (hv : v ∈ allU k)
    (hm : v ∈ allMeshL cs) : v ∈ allMesh k := by
  induction cs with
  | nil => cases hk
  | cons a rest ih =>
    simp only [allUL, allMeshL] at hn hm
    rw [List.nodup_append] at hn
    rcases List.mem_cons.mp hk with he | he
    · subst he
      rcases List.mem_append.mp hm with h2 | h2
      · exact h2
      · exact absurd (allMeshL_sub_allUL rest v h2) (hn.2.2 hv)
    · rcases List.mem_append.mp hm with h2 | h2
      · exact absurd (mem_allUL_of he hv)
          (hn.2.2 (allMesh_sub_allU a v h2))
      · exact ih hn.2.1 he h2

/-- In a duplicate-free tree, a node whose uuid is registered as a mesh
uuid is itself a mesh. -/
theorem mesh_of_mem_allMesh {c t : VNode} (h : Sub c t) :
    (allU t).Nodup → c.uuid ∈ allMesh t → c.isMesh = true := by
  induction h with
  | refl =>
    intro hn hm
    rw [allMesh_eq] at hm
    cases hme : c.isMesh with
    | true => rfl
    | false =>
      rw [hme] at hm
      simp at hm
      have h2 : c.uuid ∈ allUL c.children :=
        allMeshL_sub_allUL _ _ hm
      rw [allU_eq, List.nodup_cons] at hn
      exact absurd h2 hn.1
  | step h2 hk ih =>
    rename_i k0 t0
    intro hn hm
    apply ih (nodup_allU_of_mem (nodup_children hn) hk)
    rw [allMesh_eq] at hm
    have hcu : c.uuid ∈ allU k0 := subU h2
    rcases List.mem_append.mp hm with h3 | h3
    · exfalso
      have h4 : c.uuid ∈ allUL t0.children := mem_allUL_of hk hcu
      cases hme : t0.isMesh with
      | true =>
        rw [hme] at h3
        have h5 : c.uuid = t0.uuid := List.mem_singleton.mp h3
        rw [allU_eq, List.nodup_cons] at hn
        exact hn.1 (h5 ▸ h4)
      | false =>
        rw [hme] at h3
        cases h3
    · exact mem_allMesh_of_child (nodup_children hn) hk hcu h3

/-! ### `firstIdx` specifications -/

theorem firstIdx_spec_some {p : α → Prop} [DecidablePred p] {l : List α}
    {i : Nat} {a : α} (ha : l.get? i = some a) (hpa : p a)
    (hprior : ∀ j b, j < i → l.get? j = some b → ¬ p b) :
    firstIdx p l = some i := by
  induction l generalizing i with
  | nil => cases i <;> cases ha
  | cons x t ih =>
    cases i with
    | zero =>
      cases ha
      simp [firstIdx, hpa]
    | succ n =>
      have hx : ¬ p x := hprior 0 x (Nat.succ_pos n) rfl
      have ht2 := ih ha (fun j b hj hb => hprior (j + 1) b (by omega) hb)
      simp [firstIdx, hx, ht2]

theorem firstIdx_spec_none {p : α → Prop} [DecidablePred p] {l : List α}
    (h : ∀ a ∈ l, ¬ p a) : firstIdx p l = none := by
  induction l with
  | nil => rfl
  | cons x t ih =>
    simp [firstIdx, h x (List.mem_cons_self x t),
      ih (fun a ha => h a (List.mem_cons_of_mem _ ha))]

theorem mappedU_sub_allU {e : VNode} {v : Nat} (h : v ∈ mappedU e) :
    v ∈ allU e := by
  rcases List.mem_cons.mp h with h2 | h2
  · rw [h2]; exact uuid_mem_allU e
  · exact allMesh_sub_allU e v h2

/-- The `visualMeshes.find` predicate only fires on uuids of the entity
or its direct children, all of which lie in the entity's uuid set. -/
theorem mem_allU_of_findPred {e : VNode} {v : Nat}
    (h : e.uuid = v ∨ v ∈ e.children.map VNode.uuid) : v ∈ allU e := by
  rcases h with h | h
  · rw [← h]; exact uuid_mem_allU e
  · obtain ⟨k, hk, hkv⟩ := List.mem_map.mp h
    rw [← hkv]
    rw [allU_eq]
    exact List.mem_cons_of_mem _ (mem_allUL_of hk (uuid_mem_allU k))

/-! ### Resolution-walk characterizations -/

/-- `physicsMap.get` on any registered uuid of entity `i` returns body `i`. -/
theorem physicsMapGet_eq_of_mapped {ents : List VNode} (hW : WFreg ents)
    {i : Nat} {t : VNode} (ht : ents.get? i = some t) {c : VNode}
    (hs : Sub c t) (hm : c.uuid ∈ mappedU t) :
    physicsMapGet ents c.uuid = some i := by
  apply firstIdx_spec_some ht hm
  intro j e hj he hpe
  exact allU_disjoint_get hW ht he (by omega) c.uuid (subU hs)
    (mappedU_sub_allU hpe)

/-- `visualMeshes.find` on the entity's own uuid returns the entity. -/
theorem findVisualMesh_root {ents : List VNode} (hW : WFreg ents)
    {i : Nat} {t : VNode} (ht : ents.get? i = some t) :
    findVisualMesh ents t.uuid = some i := by
  apply firstIdx_spec_some ht (Or.inl rfl)
  intro j e hj he hpe
  exact allU_disjoint_get hW ht he (by omega) t.uuid (uuid_mem_allU t)
    (mem_allU_of_findPred hpe)

/-- `visualMeshes.find` on a direct child's uuid returns the entity. -/
theorem findVisualMesh_child {ents : List VNode} (hW : WFreg ents)
    {i : Nat} {t : VNode} (ht : ents.get? i = some t) {c : VNode}
    (hc : c ∈ t.children) : findVisualMesh ents c.uuid = some i := by
  apply firstIdx_spec_some ht
    (Or.inr (List.mem_map.mpr ⟨c, hc, rfl⟩))
  intro j e hj he hpe
  exact allU_disjoint_get hW ht he (by omega) c.uuid
    (subU (sub_of_child hc)) (mem_allU_of_findPred hpe)

/-- `visualMeshes.find` misses nodes nested two or more levels deep. -/
theorem findVisualMesh_deep_none {ents : List VNode} (hW : WFreg ents)
    {i : Nat} {t : VNode} (ht : ents.get? i = some t) {c p k : VNode}
    (hk : k ∈ t.children) (hpk : Sub p k) (hc : c ∈ p.children) :
    findVisualMesh ents c.uuid = none := by
  have hct : Sub c t :=
    sub_trans (sub_of_child hc) (sub_trans hpk (sub_of_child hk))
  have hcu_k : c.uuid ∈ allU k := subU (sub_trans (sub_of_child hc) hpk)
  have hnt : (allU t).Nodup := nodup_allU_get hW ht
  apply firstIdx_spec_none
  intro e he hpe
  have hcu_e : c.uuid ∈ allU e := mem_allU_of_findPred hpe
  have het : e = t :=
    allU_inj hW he (List.get?_mem ht) hcu_e (subU hct)
  subst het
  rcases hpe with h2 | h2
  · -- c.uuid would equal the root uuid
    have h3 : c.uuid ∈ allUL e.children := mem_allUL_of hk hcu_k
    rw [allU_eq, List.nodup_cons] at hnt
    exact hnt.1 (h2 ▸ h3)
  · -- c.uuid would equal a direct child's uuid
    obtain ⟨k2, hk2, hk2v⟩ := List.mem_map.mp h2
    have hkk : k2 = k :=
      allU_inj (nodup_children hnt) hk2 hk (hk2v ▸ uuid_mem_allU k2) hcu_k
    subst hkk
    have h4 : c.uuid ∈ allUL k2.children := childU hpk c hc
    have hnk : (allU k2).Nodup := nodup_allU_of_mem (nodup_children hnt) hk2
    rw [allU_eq, List.nodup_cons] at hnk
    exact hnk.1 (hk2v ▸ h4)

/-- `physicsMap.get` misses non-mesh strict descendants. -/
theorem physicsMapGet_nonmesh_none {ents : List VNode} (hW : WFreg ents)
    {i : Nat} {t : VNode} (ht : ents.get? i = some t) {c k : VNode}
    (hk : k ∈ t.children) (hck : Sub c k) (hm : c.isMesh = false) :
    physicsMapGet ents c.uuid = none := by
  have hct : Sub c t := sub_trans hck (sub_of_child hk)
  have hnt : (allU t).Nodup := nodup_allU_get hW ht
  apply firstIdx_spec_none
  intro e he hpe
  have het : e = t :=
    allU_inj hW he (List.get?_mem ht) (mappedU_sub_allU hpe) (subU hct)
  subst het
  rcases List.mem_cons.mp hpe with h2 | h2
  · have h3 : c.uuid ∈ allUL e.children := mem_allUL_of hk (subU hck)
    rw [allU_eq, List.nodup_cons] at hnt
    exact hnt.1 (h2 ▸ h3)
  · have := mesh_of_mem_allMesh hct hnt h2
    rw [hm] at this
    cases this

/-- Correctness of the `onGrabStart` ancestor walk: starting from any
node of entity `i`'s tree (at any nesting depth), the walk resolves the
owning top-level entity `i` and its registered body `i`. -/
theorem resolveChain_desc {ents : List VNode} (hW : WFreg ents) {i : Nat}
    {t : VNode} (ht : ents.get? i = some t) :
    ∀ {ch : List VNode}, Desc t ch →
      resolveChain ents (ch.map VNode.uuid) = some (i, i) := by
  intro ch h
  induction h with
  | refl =>
    have h1 : physicsMapGet ents t.uuid = some i :=
      physicsMapGet_eq_of_mapped hW ht (Sub.refl t)
        (List.mem_cons_self _ _)
    have h2 := findVisualMesh_root hW ht
    simp [resolveChain, h1, h2]
  | @step c p rest hd hc ih =>
    obtain ⟨k, hk, hck⟩ := desc_strict (Desc.step hd hc) rfl
    have hct : Sub c t := sub_trans hck (sub_of_child hk)
    cases hm : c.isMesh with
    | true =>
      have h1 : physicsMapGet ents c.uuid = some i :=
        physicsMapGet_eq_of_mapped hW ht hct
          (List.mem_cons_of_mem _ (mesh_mem_allMesh hct hm))
      cases rest with
      | nil =>
        have hpt : p = t := desc_single hd
        subst hpt
        have h2 : findVisualMesh ents c.uuid = some i :=
          findVisualMesh_child hW ht hc
        simp [resolveChain, h1, h2]
      | cons r rs =>
        obtain ⟨k2, hk2, hpk2⟩ := desc_strict hd rfl
        have h2 : findVisualMesh ents c.uuid = none :=
          findVisualMesh_deep_none hW ht hk2 hpk2 hc
        simpa [resolveChain, h1, h2] using ih
    | false =>
      have h1 : physicsMapGet ents c.uuid = none :=
        physicsMapGet_nonmesh_none hW ht hk hck hm
      simpa [resolveChain, h1] using ih

/-- A chain none of whose uuids is registered resolves to nothing. -/
theorem resolveChain_unregistered {ents : List VNode} :
    ∀ {ch : List Nat}, (∀ u ∈ ch, physicsMapGet ents u = none) →
      resolveChain ents ch = none := by
  intro ch h
  induction ch with
  | nil => rfl
  | cons u rest ih =>
    have h1 := h u (List.mem_cons_self u rest)
    simp [resolveChain, h1]
    exact ih (fun v hv => h v (List.mem_cons_of_mem _ hv))

/-! ## Behaviour of the per-frame held-object block -/

theorem updateHeldKin_grabbed (s : State) (g : GrabRec) (pose : Transform) :
    (updateHeldKin s g pose).grabbedObjects = s.grabbedObjects := by
  unfold updateHeldKin
  repeat' split
  all_goals rfl

theorem updateHeldKin_meshes (s : State) (g : GrabRec) (pose : Transform) :
    (updateHeldKin s g pose).visualMeshes = s.visualMeshes := by
  unfold updateHeldKin
  repeat' split
  all_goals rfl

theorem updateHeldKin_trees (s : State) (g : GrabRec) (pose : Transform) :
    (updateHeldKin s g pose).modelTrees = s.modelTrees := by
  unfold updateHeldKin
  repeat' split
  all_goals rfl

theorem updateHeldKin_lastPos (s : State) (g : GrabRec) (pose : Transform) :
    (updateHeldKin s g pose).controllerLastPosition =
      s.controllerLastPosition := by
  unfold updateHeldKin
  repeat' split
  all_goals rfl

theorem updateHeldKin_velMap (s : State) (g : GrabRec) (pose : Transform) :
    (updateHeldKin s g pose).controllerVelocity = s.controllerVelocity := by
  unfold updateHeldKin
  repeat' split
  all_goals rfl

theorem updateHeldKin_bodies_kin (s : State) (g : GrabRec) (pose : Transform)
    {b : Body} (hb : s.physicsBodies.get? g.body = some b)
    (hbt : b.type = BodyType.kinematic) :
    (updateHeldKin s g pose).physicsBodies.get? g.body =
      some { b with position := pose.pos, quaternion := pose.quat } := by
  unfold updateHeldKin
  simp only [hb]
  rw [if_pos hbt]
  dsimp only
  rw [get?_setAt_self, hb]
  rfl

theorem updateHeldKin_bodies_ne (s : State) (g : GrabRec) (pose : Transform)
    {k : Nat} (h : g.body ≠ k) :
    (updateHeldKin s g pose).physicsBodies.get? k =
      s.physicsBodies.get? k := by
  unfold updateHeldKin
  repeat' split
  · exact get?_setAt_ne _ _ _ (fun he => h he.symm)
  · rfl
  · rfl

theorem updateHeld_none (s : State) (c : Ctrl) (dt : ℚ)
    (poses : Ctrl → Transform) (h : s.grabbedObjects c = none) :
    updateHeld s c dt poses = s := by
  unfold updateHeld
  rw [h]

theorem updateHeld_grabbed (s : State) (c : Ctrl) (dt : ℚ)
    (poses : Ctrl → Transform) :
    (updateHeld s c dt poses).grabbedObjects = s.grabbedObjects := by
  unfold updateHeld
  repeat' split
  any_goals rfl
  rw [updateHeldKin_grabbed]

theorem updateHeld_meshes (s : State) (c : Ctrl) (dt : ℚ)
    (poses : Ctrl → Transform) :
    (updateHeld s c dt poses).visualMeshes = s.visualMeshes := by
  unfold updateHeld
  repeat' split
  any_goals rfl
  rw [updateHeldKin_meshes]

theorem updateHeld_trees (s : State) (c : Ctrl) (dt : ℚ)
    (poses : Ctrl → Transform) :
    (updateHeld s c dt poses).modelTrees = s.modelTrees := by
  unfold updateHeld
  repeat' split
  any_goals rfl
  rw [updateHeldKin_trees]

theorem updateHeld_lastPos_other (s : State) (c : Ctrl) (dt : ℚ)
    (poses : Ctrl → Transform) {c2 : Ctrl} (h : c2 ≠ c) :
    (updateHeld s c dt poses).controllerLastPosition c2 =
      s.controllerLastPosition c2 := by
  unfold updateHeld
  repeat' split
  any_goals rfl
  rw [updateHeldKin_lastPos]
  simp [updC, h]

theorem updateHeld_velocity_other (s : State) (c : Ctrl) (dt : ℚ)
    (poses : Ctrl → Transform) {c2 : Ctrl} (h : c2 ≠ c) :
    (updateHeld s c dt poses).controllerVelocity c2 =
      s.controllerVelocity c2 := by
  unfold updateHeld
  repeat' split
  any_goals rfl
  rw [updateHeldKin_velMap]
  simp [updC, h]

/-- Velocity estimate written by the held-object block: the unguarded
finite difference. -/
theorem updateHeld_velocity (s : State) (c : Ctrl) (dt : ℚ)
    (poses : Ctrl → Transform) {g : GrabRec} {lp : V3} {v0 : V3J}
    (hg : s.grabbedObjects c = some g)
    (hl : s.controllerLastPosition c = some lp)
    (hv : s.controllerVelocity c = some v0) :
    (updateHeld s c dt poses).controllerVelocity c =
      some (jsVelocity (poses c).pos lp dt) := by
  unfold updateHeld
  rw [hg, hl, hv]
  rw [updateHeldKin_velMap]
  simp [updC]

theorem updateHeld_lastPos (s : State) (c : Ctrl) (dt : ℚ)
    (poses : Ctrl → Transform) {g : GrabRec} {lp : V3} {v0 : V3J}
    (hg : s.grabbedObjects c = some g)
    (hl : s.controllerLastPosition c = some lp)
    (hv : s.controllerVelocity c = some v0) :
    (updateHeld s c dt poses).controllerLastPosition c =
      some (poses c).pos := by
  unfold updateHeld
  rw [hg, hl, hv]
  rw [updateHeldKin_lastPos]
  simp [updC]

/-- The kinematic push: when the held body is kinematic, its transform is
overwritten with the controller's world transform. -/
theorem updateHeld_bodies_kin (s : State) (c : Ctrl) (dt : ℚ)
    (poses : Ctrl → Transform) {g : GrabRec} {lp : V3} {v0 : V3J} {b : Body}
    (hg : s.grabbedObjects c = some g)
    (hl : s.controllerLastPosition c = some lp)
    (hv : s.controllerVelocity c = some v0)
    (hb : s.physicsBodies.get? g.body = some b)
    (hbt : b.type = BodyType.kinematic) :
    (updateHeld s c dt poses).physicsBodies.get? g.body =
      some { b with position := (poses c).pos, quaternion := (poses c).quat } := by
  unfold updateHeld
  rw [hg, hl, hv]
  exact updateHeldKin_bodies_kin _ _ _ hb hbt

/-- The held-object block leaves every body other than the one held by
`c` (or all of them, when `c` holds nothing) untouched. -/
theorem updateHeld_bodies_ne (s : State) (c : Ctrl) (dt : ℚ)
    (poses : Ctrl → Transform) {k : Nat}
    (h : ∀ g, s.grabbedObjects c = some g → g.body ≠ k) :
    (updateHeld s c dt poses).physicsBodies.get? k =
      s.physicsBodies.get? k := by
  unfold updateHeld
  cases hg : s.grabbedObjects c with
  | none => rfl
  | some g =>
    cases hl : s.controllerLastPosition c with
    | none => rfl
    | some lp =>
      cases hv : s.controllerVelocity c with
      | none => rfl
      | some v0 => exact updateHeldKin_bodies_ne _ _ _ (h g hg)

/-! ## Grab-state predicates and event sequences -/

/-- Mutual-exclusion invariant: no physics body is referenced by both
controllers' grab records. -/
def MutexInv (s : State) : Prop :=
  ∀ g1 g2, s.grabbedObjects Ctrl.one = some g1 →
    s.grabbedObjects Ctrl.two = some g2 → g1.body ≠ g2.body

/-- A grab-start input event: the controller it addresses, the controller
poses at that instant, and the uuid chain of the nearest ray hit. -/
structure GrabEvent where
  ctrl : Ctrl
  poses : Ctrl → Transform
  hit : Option (List Nat)

/-- Deliver a sequence of grab-start events. -/
def applyGrabStarts (s : State) : List GrabEvent → State
  | [] => s
  | e :: es => applyGrabStarts (onGrabStart s e.ctrl e.poses e.hit) es

theorem bodyHeld_false_left {o1 o2 : Option GrabRec} {k : Nat}
    (h : bodyHeld o1 o2 k = false) : ∀ g, o1 = some g → g.body ≠ k := by
  intro g hg he
  subst hg
  simp [bodyHeld, he] at h

theorem bodyHeld_false_right {o1 o2 : Option GrabRec} {k : Nat}
    (h : bodyHeld o1 o2 k = false) : ∀ g, o2 = some g → g.body ≠ k := by
  intro g hg he
  subst hg
  simp [bodyHeld, he] at h

theorem bodyHeld_false_intro {o1 o2 : Option GrabRec} {k : Nat}
    (h1 : ∀ g, o1 = some g → g.body ≠ k)
    (h2 : ∀ g, o2 = some g → g.body ≠ k) : bodyHeld o1 o2 k = false := by
  unfold bodyHeld
  cases o1 with
  | none =>
    cases o2 with
    | none => rfl
    | some g => simp [h2 g rfl]
  | some g =>
    cases o2 with
    | none => simp [h1 g rfl]
    | some g2 => simp [h1 g rfl, h2 g2 rfl]

/-- If the other controller already holds body `k`, the mutual-exclusion
scan fires. -/
theorem bodyHeld_true_other (s : State) (c : Ctrl) {g2 : GrabRec} {k : Nat}
    (hg2 : s.grabbedObjects c.other = some g2) (hb : g2.body = k) :
    bodyHeld (s.grabbedObjects Ctrl.one) (s.grabbedObjects Ctrl.two) k = true := by
  cases c with
  | one =>
    have h2 : s.grabbedObjects Ctrl.two = some g2 := hg2
    unfold bodyHeld
    rw [h2]
    cases hone : s.grabbedObjects Ctrl.one <;> simp [hb]
  | two =>
    have h2 : s.grabbedObjects Ctrl.one = some g2 := hg2
    unfold bodyHeld
    rw [h2]
    simp [hb]

/-- `onGrabStart` either leaves the grab map unchanged, or installs a
record for `c` on a body no controller currently holds. -/
theorem onGrabStart_grabbed_cases (s : State) (c : Ctrl)
    (poses : Ctrl → Transform) (hit : Option (List Nat)) :
    (onGrabStart s c poses hit).grabbedObjects = s.grabbedObjects ∨
    ∃ j k, bodyHeld (s.grabbedObjects Ctrl.one) (s.grabbedObjects Ctrl.two) k
        = false ∧
      (onGrabStart s c poses hit).grabbedObjects =
        updC s.grabbedObjects c (some ⟨j, k⟩) := by
  unfold onGrabStart
  split
  · left; rfl
  split
  · left; rfl
  cases hit with
  | none => left; rfl
  | some chain =>
    cases hres : resolveChain s.modelTrees chain with
    | none =>
      left
      simp only [hres]
    | some jk =>
      obtain ⟨j, k⟩ := jk
      cases hheld : bodyHeld (s.grabbedObjects Ctrl.one)
          (s.grabbedObjects Ctrl.two) k with
      | true =>
        left
        simp [hres, hheld]
      | false =>
        right
        refine ⟨j, k, hheld, ?_⟩
        simp [hres, hheld]

theorem mutex_preserved (s : State) (c : Ctrl) (poses : Ctrl → Transform)
    (hit : Option (List Nat)) (h : MutexInv s) :
    MutexInv (onGrabStart s c poses hit) := by
  rcases onGrabStart_grabbed_cases s c poses hit with hcase | ⟨j, k, hfree, hcase⟩
  · intro g1 g2 h1 h2
    rw [hcase] at h1 h2
    exact h g1 g2 h1 h2
  · intro g1 g2 h1 h2
    rw [hcase] at h1 h2
    cases c with
    | one =>
      rw [updC_self] at h1
      rw [updC_ne _ _ _ (by decide)] at h2
      cases h1
      exact fun he => bodyHeld_false_right hfree g2 h2 (he ▸ rfl)
    | two =>
      rw [updC_self] at h2
      rw [updC_ne _ _ _ (by decide)] at h1
      cases h2
      exact fun he => bodyHeld_false_left hfree g1 h1 he

theorem mutex_sequences {s : State} (h : MutexInv s) :
    ∀ evs : List GrabEvent, MutexInv (applyGrabStarts s evs) := by
  intro evs
  induction evs generalizing s with
  | nil => exact h
  | cons e es ih => exact ih (mutex_preserved s e.ctrl e.poses e.hit h)

/-- C1: Mutual exclusion of grabs.  Across any sequence of grab-start
events on the two controllers, each physics body is referenced by at most
one grab record; and a grab-start whose ray resolves to a body already
held by the other controller is a complete no-op (the controller stays
Idle and the whole program state is unchanged). -/
theorem grab_mutual_exclusion (s : State) (hm : MutexInv s) :
    (∀ evs : List GrabEvent, MutexInv (applyGrabStarts s evs)) ∧
    (∀ (c : Ctrl) (poses : Ctrl → Transform) (chain : List Nat)
       (j k : Nat) (g2 : GrabRec),
       resolveChain s.modelTrees chain = some (j, k) →
       s.grabbedObjects c.other = some g2 → g2.body = k →
       onGrabStart s c poses (some chain) = s) := by
  refine ⟨mutex_sequences hm, ?_⟩
  intro c poses chain j k g2 hres hg2 hbody
  unfold onGrabStart
  split
  · rfl
  split
  · rfl
  simp only [hres]
  rw [bodyHeld_true_other s c hg2 hbody]
  rfl

/-- C9: Re-entrant grab-start is a no-op: a controller that already holds
an entity and receives another grab-start (whatever its ray targets)
leaves the whole program state unchanged. -/
theorem reentrant_grabStart_noop (s : State) (c : Ctrl)
    (poses : Ctrl → Transform) (hit : Option (List Nat)) {g : GrabRec}
    (h : s.grabbedObjects c = some g) :
    onGrabStart s c poses hit = s := by
  unfold onGrabStart
  split
  · rfl
  · simp [h]

/-- C10: The `sessionend` handler clears the grab records and
velocity-tracking maps but performs no Holding → Idle transition: the
held body keeps its Kinematic mode and its velocities, and the held
entity's visual node stays parented to the controller. -/
theorem sessionEnd_leaves_grab_artifacts (s : State) (c : Ctrl)
    {g : GrabRec} {b : Body} {m : MeshNode}
    (hg : s.grabbedObjects c = some g)
    (hb : s.physicsBodies.get? g.body = some b)
    (hbt : b.type = BodyType.kinematic)
    (hm : s.visualMeshes.get? g.obj = some m)
    (hmp : m.parent = MParent.ctrl c) :
    (∀ c2, (sessionEnd s).grabbedObjects c2 = none) ∧
    (∀ c2, (sessionEnd s).controllerLastPosition c2 = none) ∧
    (∀ c2, (sessionEnd s).controllerVelocity c2 = none) ∧
    (sessionEnd s).physicsBodies = s.physicsBodies ∧
    (sessionEnd s).visualMeshes = s.visualMeshes ∧
    ((sessionEnd s).physicsBodies.get? g.body).map Body.type =
      some BodyType.kinematic ∧
    ((sessionEnd s).physicsBodies.get? g.body).map Body.velocity =
      some b.velocity ∧
    ((sessionEnd s).physicsBodies.get? g.body).map Body.angularVelocity =
      some b.angularVelocity ∧
    ((sessionEnd s).visualMeshes.get? g.obj).map MeshNode.parent =
      some (MParent.ctrl c) := by
  refine ⟨fun _ => rfl, fun _ => rfl, fun _ => rfl, rfl, rfl, ?_, ?_, ?_, ?_⟩
  · show (s.physicsBodies.get? g.body).map Body.type = _
    rw [hb]
    show some b.type = _
    rw [hbt]
  · show (s.physicsBodies.get? g.body).map Body.velocity = _
    rw [hb]
    rfl
  · show (s.physicsBodies.get? g.body).map Body.angularVelocity = _
    rw [hb]
    rfl
  · show (s.visualMeshes.get? g.obj).map MeshNode.parent = _
    rw [hm]
    show some m.parent = _
    rw [hmp]

/-- C8: Intersection resolution: in a well-formed registry, the ancestor
walk resolves any hit node of entity `i`'s tree — at any nesting depth —
to the owning top-level entity `i` and its registered body `i`; a chain
with no registered uuid resolves to nothing; and a grab-start whose ray
hits nothing leaves the state unchanged. -/
theorem intersection_resolution (ents : List VNode) (hW : WFreg ents) :
    (∀ (i : Nat) (t : VNode) (ch : List VNode), ents.get? i = some t →
       Desc t ch → resolveChain ents (ch.map VNode.uuid) = some (i, i)) ∧
    (∀ ch : List Nat, (∀ u ∈ ch, physicsMapGet ents u = none) →
       resolveChain ents ch = none) ∧
    (∀ (s : State) (c : Ctrl) (poses : Ctrl → Transform),
       onGrabStart s c poses none = s) := by
  refine ⟨?_, ?_, ?_⟩
  · intro i t ch ht hd
    exact resolveChain_desc hW ht hd
  · intro ch h
    exact resolveChain_unregistered h
  · intro s c poses
    unfold onGrabStart
    split
    · rfl
    split
    · rfl
    rfl

/-- C6: Successful grab-start postcondition: the controller gets a grab
record for the resolved entity and body; the body becomes Kinematic with
zeroed linear and angular velocity; the entity's visual node becomes a
child of the controller's node with its world transform exactly preserved
(three.js `attach`); the velocity-tracking sample is initialized to the
controller's current position, and the velocity estimate to zero. -/
theorem grabStart_success (s : State) (c : Ctrl) (poses : Ctrl → Transform)
    (chain : List Nat) {j k : Nat} {b : Body} {m : MeshNode}
    (hgate : ¬(c = Ctrl.one ∧ s.isTeleportAiming = true))
    (hidle : s.grabbedObjects c = none)
    (hres : resolveChain s.modelTrees chain = some (j, k))
    (hfree : bodyHeld (s.grabbedObjects Ctrl.one) (s.grabbedObjects Ctrl.two) k
      = false)
    (hb : s.physicsBodies.get? k = some b)
    (hm : s.visualMeshes.get? j = some m)
    (hunit : Quat.normSq (poses c).quat = 1) :
    (onGrabStart s c poses (some chain)).grabbedObjects c = some ⟨j, k⟩ ∧
    (onGrabStart s c poses (some chain)).physicsBodies.get? k =
      some { b with type := BodyType.kinematic, velocity := V3J.zero,
                    angularVelocity := V3J.zero } ∧
    (onGrabStart s c poses (some chain)).visualMeshes.get? j =
      some ⟨MParent.ctrl c,
        Transform.comp (Transform.inv (poses c)) (worldOfMesh poses m)⟩ ∧
    worldOfMesh poses
      ⟨MParent.ctrl c,
        Transform.comp (Transform.inv (poses c)) (worldOfMesh poses m)⟩ =
      worldOfMesh poses m ∧
    (onGrabStart s c poses (some chain)).controllerLastPosition c =
      some (poses c).pos ∧
    (onGrabStart s c poses (some chain)).controllerVelocity c =
      some V3J.zero := by
  have hred : onGrabStart s c poses (some chain) =
      { s with
        grabbedObjects := updC s.grabbedObjects c (some ⟨j, k⟩),
        physicsBodies := setAt s.physicsBodies k (fun b2 =>
          { b2 with type := .kinematic, velocity := V3J.zero,
                    angularVelocity := V3J.zero }),
        visualMeshes := setAt s.visualMeshes j (fun m2 =>
          { parent := .ctrl c,
            localT := Transform.comp (Transform.inv (poses c))
              (worldOfMesh poses m2) }),
        controllerLastPosition := updC s.controllerLastPosition c
          (some (poses c).pos),
        controllerVelocity := updC s.controllerVelocity c (some V3J.zero) } := by
    unfold onGrabStart
    rw [if_neg hgate]
    rw [hidle]
    simp only [Option.isSome_none, Bool.false_eq_true, if_false, hres, hfree]
  rw [hred]
  refine ⟨updC_self _ _ _, ?_, ?_, ?_, updC_self _ _ _, updC_self _ _ _⟩
  · show (setAt s.physicsBodies k _).get? k = _
    rw [get?_setAt_self, hb]
    rfl
  · show (setAt s.visualMeshes j _).get? j = _
    rw [get?_setAt_self, hm]
    rfl
  · show Transform.comp (poses c)
      (Transform.comp (Transform.inv (poses c)) (worldOfMesh poses m)) = _
    exact comp_inv_cancel _ _ hunit

/-- C7: Grab-end postcondition: the held entity's visual node is
re-parented to the scene with its world transform preserved, the body
becomes Dynamic and awake with the tracked velocity applied, and the
controller's grab record, last-sampled position and velocity estimate
are all destroyed (the controller returns to Idle). -/
theorem grabEnd_postcondition (s : State) (c : Ctrl)
    (poses : Ctrl → Transform) {g : GrabRec} {b : Body} {m : MeshNode}
    {v : V3J}
    (hg : s.grabbedObjects c = some g)
    (hv : s.controllerVelocity c = some v)
    (hb : s.physicsBodies.get? g.body = some b)
    (hm : s.visualMeshes.get? g.obj = some m) :
    (onGrabEnd s c poses).visualMeshes.get? g.obj =
      some ⟨MParent.scene, worldOfMesh poses m⟩ ∧
    worldOfMesh poses ⟨MParent.scene, worldOfMesh poses m⟩ =
      worldOfMesh poses m ∧
    (onGrabEnd s c poses).physicsBodies.get? g.body =
      some { b with type := BodyType.dynamic, awake := true, velocity := v } ∧
    (onGrabEnd s c poses).grabbedObjects c = none ∧
    (onGrabEnd s c poses).controllerLastPosition c = none ∧
    (onGrabEnd s c poses).controllerVelocity c = none := by
  have hred : onGrabEnd s c poses =
      { s with
        visualMeshes := setAt s.visualMeshes g.obj (fun m2 =>
          { parent := .scene, localT := worldOfMesh poses m2 }),
        physicsBodies := setAt s.physicsBodies g.body (fun b2 =>
          { b2 with type := .dynamic, awake := true,
                    velocity := match s.controllerVelocity c with
                      | some v2 => v2
                      | none => b2.velocity }),
        grabbedObjects := updC s.grabbedObjects c none,
        controllerLastPosition := updC s.controllerLastPosition c none,
        controllerVelocity := updC s.controllerVelocity c none } := by
    unfold onGrabEnd
    rw [hg]
  rw [hred]
  refine ⟨?_, rfl, ?_, updC_self _ _ _, updC_self _ _ _, updC_self _ _ _⟩
  · show (setAt s.visualMeshes g.obj _).get? g.obj = _
    rw [get?_setAt_self, hm]
    rfl
  · show (setAt s.physicsBodies g.body _).get? g.body = _
    rw [get?_setAt_self, hb]
    simp only [hv]
    rfl

/-! ## The frame pass while presenting -/

/-- State after the physics step and both controllers' held-object
blocks, before the visual-sync loop. -/
def frameMid (s : State) (dt : ℚ) (poses : Ctrl → Transform)
    (phys : List Body → List Body) : State :=
  updateHeld
    (updateHeld { s with physicsBodies := phys s.physicsBodies }
      Ctrl.one dt poses)
    Ctrl.two dt poses

theorem animate_true_eq (s : State) (dt : ℚ) (poses : Ctrl → Transform)
    (phys : List Body → List Body) :
    animate s dt poses phys true =
      { frameMid s dt poses phys with
        visualMeshes := syncFrom
          (bodyHeld ((frameMid s dt poses phys).grabbedObjects Ctrl.one)
            ((frameMid s dt poses phys).grabbedObjects Ctrl.two))
          (frameMid s dt poses phys).physicsBodies
          (frameMid s dt poses phys).visualMeshes 0 } := rfl

theorem frameMid_grabbed (s : State) (dt : ℚ) (poses : Ctrl → Transform)
    (phys : List Body → List Body) :
    (frameMid s dt poses phys).grabbedObjects = s.grabbedObjects := by
  unfold frameMid
  rw [updateHeld_grabbed, updateHeld_grabbed]

theorem frameMid_meshes (s : State) (dt : ℚ) (poses : Ctrl → Transform)
    (phys : List Body → List Body) :
    (frameMid s dt poses phys).visualMeshes = s.visualMeshes := by
  unfold frameMid
  rw [updateHeld_meshes, updateHeld_meshes]

/-- The velocity estimate a holding controller carries after the frame
pass: the unguarded finite difference of its positions. -/
theorem frameMid_velocity (s : State) (c : Ctrl) (dt : ℚ)
    (poses : Ctrl → Transform) (phys : List Body → List Body)
    {g : GrabRec} {lp : V3} {v0 : V3J}
    (hg : s.grabbedObjects c = some g)
    (hl : s.controllerLastPosition c = some lp)
    (hv : s.controllerVelocity c = some v0) :
    (frameMid s dt poses phys).controllerVelocity c =
      some (jsVelocity (poses c).pos lp dt) := by
  unfold frameMid
  cases c with
  | one =>
    rw [updateHeld_velocity_other _ Ctrl.two dt poses (by decide)]
    exact updateHeld_velocity _ Ctrl.one dt poses hg hl hv
  | two =>
    have h1 : (updateHeld { s with physicsBodies := phys s.physicsBodies }
        Ctrl.one dt poses).grabbedObjects Ctrl.two = some g := by
      rw [updateHeld_grabbed]; exact hg
    have h2 : (updateHeld { s with physicsBodies := phys s.physicsBodies }
        Ctrl.one dt poses).controllerLastPosition Ctrl.two = some lp := by
      rw [updateHeld_lastPos_other _ Ctrl.one dt poses (by decide)]
      exact hl
    have h3 : (updateHeld { s with physicsBodies := phys s.physicsBodies }
        Ctrl.one dt poses).controllerVelocity Ctrl.two = some v0 := by
      rw [updateHeld_velocity_other _ Ctrl.one dt poses (by decide)]
      exact hv
    exact updateHeld_velocity _ Ctrl.two dt poses h1 h2 h3

/-- The kinematic push through the whole frame pass: the held kinematic
body ends at the holding controller's world transform. -/
theorem frameMid_bodies_kin (s : State) (c : Ctrl) (dt : ℚ)
    (poses : Ctrl → Transform) (phys : List Body → List Body)
    {g : GrabRec} {lp : V3} {v0 : V3J} {b : Body}
    (hg : s.grabbedObjects c = some g)
    (hl : s.controllerLastPosition c = some lp)
    (hv : s.controllerVelocity c = some v0)
    (hb : (phys s.physicsBodies).get? g.body = some b)
    (hbt : b.type = BodyType.kinematic)
    (hmut : ∀ g2, s.grabbedObjects c.other = some g2 → g2.body ≠ g.body) :
    (frameMid s dt poses phys).physicsBodies.get? g.body =
      some { b with position := (poses c).pos, quaternion := (poses c).quat } := by
  unfold frameMid
  cases c with
  | one =>
    have h1 := updateHeld_bodies_kin
      { s with physicsBodies := phys s.physicsBodies } Ctrl.one dt poses
      hg hl hv hb hbt
    rw [updateHeld_bodies_ne]
    · exact h1
    · intro g2 hg2 he
      rw [updateHeld_grabbed] at hg2
      exact hmut g2 hg2 he
  | two =>
    have hne : (updateHeld { s with physicsBodies := phys s.physicsBodies }
        Ctrl.one dt poses).physicsBodies.get? g.body =
        (phys s.physicsBodies).get? g.body := by
      apply updateHeld_bodies_ne
      intro g2 hg2 he
      exact hmut g2 hg2 he
    have h1 : (updateHeld { s with physicsBodies := phys s.physicsBodies }
        Ctrl.one dt poses).grabbedObjects Ctrl.two = some g := by
      rw [updateHeld_grabbed]; exact hg
    have h2 : (updateHeld { s with physicsBodies := phys s.physicsBodies }
        Ctrl.one dt poses).controllerLastPosition Ctrl.two = some lp := by
      rw [updateHeld_lastPos_other _ Ctrl.one dt poses (by decide)]
      exact hl
    have h3 : (updateHeld { s with physicsBodies := phys s.physicsBodies }
        Ctrl.one dt poses).controllerVelocity Ctrl.two = some v0 := by
      rw [updateHeld_velocity_other _ Ctrl.one dt poses (by decide)]
      exact hv
    exact updateHeld_bodies_kin _ Ctrl.two dt poses h1 h2 h3
      (hne.trans hb) hbt

/-- Bodies held by nobody pass through the held-object blocks untouched. -/
theorem frameMid_bodies_unheld (s : State) (dt : ℚ)
    (poses : Ctrl → Transform) (phys : List Body → List Body) {i : Nat}
    (hnh : ∀ c2 g2, s.grabbedObjects c2 = some g2 → g2.body ≠ i) :
    (frameMid s dt poses phys).physicsBodies.get? i =
      (phys s.physicsBodies).get? i := by
  unfold frameMid
  rw [updateHeld_bodies_ne, updateHeld_bodies_ne]
  · exact fun g2 hg2 => hnh Ctrl.one g2 hg2
  · intro g2 hg2
    rw [updateHeld_grabbed] at hg2
    exact hnh Ctrl.two g2 hg2

/-- Any body survives the kinematic push with its type, velocities and
wake flag intact (only position/orientation can be rewritten). -/
theorem updateHeldKin_bodies_some (s : State) (g : GrabRec)
    (pose : Transform) {k : Nat} {b2 : Body}
    (hb2 : s.physicsBodies.get? k = some b2) :
    ∃ b3, (updateHeldKin s g pose).physicsBodies.get? k = some b3 ∧
      b3.type = b2.type ∧ b3.velocity = b2.velocity ∧
      b3.angularVelocity = b2.angularVelocity ∧ b3.awake = b2.awake := by
  unfold updateHeldKin
  cases hbody : s.physicsBodies.get? g.body with
  | none => exact ⟨b2, hb2, rfl, rfl, rfl, rfl⟩
  | some bh =>
    dsimp only
    split
    · by_cases hk : g.body = k
      · subst hk
        rw [hb2] at hbody
        cases hbody
        refine ⟨{ b2 with position := pose.pos, quaternion := pose.quat },
          ?_, rfl, rfl, rfl, rfl⟩
        rw [get?_setAt_self, hb2]
        rfl
      · refine ⟨b2, ?_, rfl, rfl, rfl, rfl⟩
        rw [get?_setAt_ne _ _ _ (fun he => hk he.symm)]
        exact hb2
    · exact ⟨b2, hb2, rfl, rfl, rfl, rfl⟩

theorem updateHeld_bodies_some (s : State) (c : Ctrl) (dt : ℚ)
    (poses : Ctrl → Transform) {k : Nat} {b2 : Body}
    (hb2 : s.physicsBodies.get? k = some b2) :
    ∃ b3, (updateHeld s c dt poses).physicsBodies.get? k = some b3 ∧
      b3.type = b2.type ∧ b3.velocity = b2.velocity ∧
      b3.angularVelocity = b2.angularVelocity ∧ b3.awake = b2.awake := by
  unfold updateHeld
  cases hg : s.grabbedObjects c with
  | none => exact ⟨b2, hb2, rfl, rfl, rfl, rfl⟩
  | some g =>
    cases hl : s.controllerLastPosition c with
    | none => exact ⟨b2, hb2, rfl, rfl, rfl, rfl⟩
    | some lp =>
      cases hv : s.controllerVelocity c with
      | none => exact ⟨b2, hb2, rfl, rfl, rfl, rfl⟩
      | some v0 => exact updateHeldKin_bodies_some _ g (poses c) hb2

/-- Any body survives the whole pair of held-object blocks with its type,
velocities and wake flag intact. -/
theorem frameMid_bodies_some (s : State) (dt : ℚ)
    (poses : Ctrl → Transform) (phys : List Body → List Body) {k : Nat}
    {b : Body} (hb : (phys s.physicsBodies).get? k = some b) :
    ∃ b1, (frameMid s dt poses phys).physicsBodies.get? k = some b1 ∧
      b1.type = b.type ∧ b1.velocity = b.velocity ∧
      b1.angularVelocity = b.angularVelocity ∧ b1.awake = b.awake := by
  obtain ⟨b1, h1, e1, e2, e3, e4⟩ := updateHeld_bodies_some
    { s with physicsBodies := phys s.physicsBodies } Ctrl.one dt poses hb
  obtain ⟨b2, h2, f1, f2, f3, f4⟩ := updateHeld_bodies_some _ Ctrl.two dt
    poses h1
  exact ⟨b2, h2, f1.trans e1, f2.trans e2, f3.trans e3, f4.trans e4⟩

/-- C2: Per-frame synchronization ownership.  After one `animate` pass
while presenting: (1) a held kinematic body's position and orientation
are an exact copy of the holding controller's world pose; (2) every
registered entity whose body is unheld and non-kinematic has its visual
transform copied from its body. -/
theorem frame_synchronization (s : State) (dt : ℚ)
    (poses : Ctrl → Transform) (phys : List Body → List Body) :
    (∀ (c : Ctrl) (g : GrabRec) (lp : V3) (v0 : V3J) (b : Body),
       s.grabbedObjects c = some g →
       s.controllerLastPosition c = some lp →
       s.controllerVelocity c = some v0 →
       (phys s.physicsBodies).get? g.body = some b →
       b.type = BodyType.kinematic →
       (∀ g2, s.grabbedObjects c.other = some g2 → g2.body ≠ g.body) →
       ((animate s dt poses phys true).physicsBodies.get? g.body).map
           (fun b2 => (b2.position, b2.quaternion)) =
         some ((poses c).pos, (poses c).quat)) ∧
    (∀ (i : Nat) (bi : Body) (mi : MeshNode),
       (∀ c2 g2, s.grabbedObjects c2 = some g2 → g2.body ≠ i) →
       (phys s.physicsBodies).get? i = some bi →
       bi.type ≠ BodyType.kinematic →
       s.visualMeshes.get? i = some mi →
       (animate s dt poses phys true).visualMeshes.get? i =
         some { mi with localT := ⟨bi.position, bi.quaternion⟩ } ∧
       (mi.parent = MParent.scene →
         worldOfMesh poses { mi with localT := ⟨bi.position, bi.quaternion⟩ } =
           ⟨bi.position, bi.quaternion⟩)) := by
  constructor
  · intro c g lp v0 b hg hl hv hb hbt hmut
    rw [animate_true_eq]
    show ((frameMid s dt poses phys).physicsBodies.get? g.body).map _ = _
    rw [frameMid_bodies_kin s c dt poses phys hg hl hv hb hbt hmut]
    rfl
  · intro i bi mi hnh hb hbt hm
    have hheld : bodyHeld ((frameMid s dt poses phys).grabbedObjects Ctrl.one)
        ((frameMid s dt poses phys).grabbedObjects Ctrl.two) i = false := by
      rw [frameMid_grabbed]
      exact bodyHeld_false_intro (fun g2 => hnh Ctrl.one g2)
        (fun g2 => hnh Ctrl.two g2)
    have hbmid : (frameMid s dt poses phys).physicsBodies.get? i =
        some bi := by
      rw [frameMid_bodies_unheld s dt poses phys hnh]
      exact hb
    have hmmid : (frameMid s dt poses phys).visualMeshes.get? i = some mi := by
      rw [frameMid_meshes]
      exact hm
    constructor
    · rw [animate_true_eq]
      show (syncFrom _ _ _ 0).get? i = _
      rw [get?_syncFrom, hmmid, hbmid]
      simp only [Nat.zero_add, hheld]
      rw [if_pos ⟨trivial, hbt⟩]
    · intro hp
      simp [worldOfMesh, hp]

/-- Release after a frame: the body receives exactly the tracked
finite-difference velocity, and its angular velocity is untouched. -/
theorem release_velocity (s : State) (c : Ctrl) (dt : ℚ)
    (poses : Ctrl → Transform) (phys : List Body → List Body)
    {g : GrabRec} {P0 : V3} {v0 : V3J} {b : Body}
    (hg : s.grabbedObjects c = some g)
    (hl : s.controllerLastPosition c = some P0)
    (hv : s.controllerVelocity c = some v0)
    (hb : (phys s.physicsBodies).get? g.body = some b) :
    ((onGrabEnd (animate s dt poses phys true) c poses).physicsBodies.get?
        g.body).map Body.velocity =
      some (jsVelocity (poses c).pos P0 dt) ∧
    ((onGrabEnd (animate s dt poses phys true) c poses).physicsBodies.get?
        g.body).map Body.angularVelocity = some b.angularVelocity := by
  have hg1 : (animate s dt poses phys true).grabbedObjects c = some g := by
    rw [animate_true_eq]
    show (frameMid s dt poses phys).grabbedObjects c = some g
    rw [frameMid_grabbed]
    exact hg
  have hv1 : (animate s dt poses phys true).controllerVelocity c =
      some (jsVelocity (poses c).pos P0 dt) := by
    rw [animate_true_eq]
    show (frameMid s dt poses phys).controllerVelocity c = _
    exact frameMid_velocity s c dt poses phys hg hl hv
  obtain ⟨b1, hb1, hty, hvel, hang, hawk⟩ :=
    frameMid_bodies_some s dt poses phys hb
  have hb1a : (animate s dt poses phys true).physicsBodies.get? g.body =
      some b1 := by
    rw [animate_true_eq]
    exact hb1
  have hred : (onGrabEnd (animate s dt poses phys true) c poses).physicsBodies
      = setAt (animate s dt poses phys true).physicsBodies g.body (fun b2 =>
        { b2 with type := .dynamic, awake := true,
                  velocity := match (animate s dt poses phys true
                    ).controllerVelocity c with
                    | some v2 => v2
                    | none => b2.velocity }) := by
    unfold onGrabEnd
    rw [hg1]
  rw [hred, get?_setAt_self, hb1a]
  constructor
  · simp only [hv1, Option.map]
  · simp only [hv1, Option.map]
    show some b1.angularVelocity = some b.angularVelocity
    rw [hang]

/-- C3: Throw velocity on release: a holding controller that moved from
`P0` to `P1 = poses c` over a frame of duration `dt ≠ 0`, then releases,
leaves the body with linear velocity `(P1 − P0) / dt` componentwise, and
the release does not modify the body's angular velocity. -/
theorem throw_velocity_on_release (s : State) (c : Ctrl) (dt : ℚ)
    (poses : Ctrl → Transform) (phys : List Body → List Body)
    {g : GrabRec} {P0 : V3} {v0 : V3J} {b : Body}
    (hg : s.grabbedObjects c = some g)
    (hl : s.controllerLastPosition c = some P0)
    (hv : s.controllerVelocity c = some v0)
    (hb : (phys s.physicsBodies).get? g.body = some b)
    (hdt : dt ≠ 0) :
    ((onGrabEnd (animate s dt poses phys true) c poses).physicsBodies.get?
        g.body).map Body.velocity =
      some ⟨.fin (((poses c).pos.x - P0.x) / dt),
            .fin (((poses c).pos.y - P0.y) / dt),
            .fin (((poses c).pos.z - P0.z) / dt)⟩ ∧
    ((onGrabEnd (animate s dt poses phys true) c poses).physicsBodies.get?
        g.body).map Body.angularVelocity = some b.angularVelocity := by
  obtain ⟨h1, h2⟩ := release_velocity s c dt poses phys hg hl hv hb
  refine ⟨?_, h2⟩
  rw [jsVelocity_pos _ _ _ hdt] at h1
  exact h1

/-- C4 (amended): the velocity estimate of a holding controller after a
frame is the unguarded finite difference `(P1 − P0) / dt`: finite
componentwise when `dt ≠ 0`, but NaN (or ±Infinity, for nonzero
displacement) when `dt = 0` — the code performs the division with no
zero-dt guard. -/
theorem velocity_estimate_unguarded (s : State) (c : Ctrl) (dt : ℚ)
    (poses : Ctrl → Transform) (phys : List Body → List Body)
    {g : GrabRec} {lp : V3} {v0 : V3J}
    (hg : s.grabbedObjects c = some g)
    (hl : s.controllerLastPosition c = some lp)
    (hv : s.controllerVelocity c = some v0) :
    (animate s dt poses phys true).controllerVelocity c =
      some (jsVelocity (poses c).pos lp dt) ∧
    (dt ≠ 0 → jsVelocity (poses c).pos lp dt =
      ⟨.fin (((poses c).pos.x - lp.x) / dt),
       .fin (((poses c).pos.y - lp.y) / dt),
       .fin (((poses c).pos.z - lp.z) / dt)⟩) ∧
    (dt = 0 → (poses c).pos = lp →
      jsVelocity (poses c).pos lp dt = ⟨.nan, .nan, .nan⟩) := by
  refine ⟨?_, ?_, ?_⟩
  · rw [animate_true_eq]
    show (frameMid s dt poses phys).controllerVelocity c = _
    exact frameMid_velocity s c dt poses phys hg hl hv
  · intro hdt
    exact jsVelocity_pos _ _ _ hdt
  · intro hdt hpos
    rw [hdt, hpos]
    exact jsVelocity_zero_dt lp

/-! ## Reset -/

theorem detachHeld_none (s : State) (c : Ctrl) (poses : Ctrl → Transform)
    (h : s.grabbedObjects c = none) : detachHeld s c poses = s := by
  unfold detachHeld
  rw [h]

theorem detachHeld_some (s : State) (c : Ctrl) (poses : Ctrl → Transform)
    {g : GrabRec} (h : s.grabbedObjects c = some g) :
    detachHeld s c poses =
      { s with
        visualMeshes := setAt s.visualMeshes g.obj (fun m =>
          { parent := .scene, localT := worldOfMesh poses m }),
        physicsBodies := setAt s.physicsBodies g.body (fun b =>
          { b with type := .dynamic }) } := by
  unfold detachHeld
  rw [h]

def resetMid (s : State) : State :=
  { s with physicsBodies := resetBodies s.physicsBodies s.initialTransforms }

theorem resetObjects_eq (s : State) (poses : Ctrl → Transform) :
    resetObjects s poses =
      { detachHeld (detachHeld (resetMid s) Ctrl.one poses) Ctrl.two poses with
        grabbedObjects := fun _ => none,
        controllerLastPosition := fun _ => none,
        controllerVelocity := fun _ => none } := rfl

/-- C5 (amended): `resetObjects` with both controllers holding distinct
entities: afterwards all grab state is cleared; every body carries its
snapshot transform with zero velocities and is awake; every body is
Dynamic (held ones are forced Dynamic, unheld ones must already have
been); and each held entity's visual node is re-parented to the scene
keeping its current world transform — the visual transforms are NOT set
to the snapshot (they only catch up on the next frame's sync pass), and
the snapshot is applied to the bodies before the detach loop runs, not
after it. -/
theorem resetObjects_spec (s : State) (poses : Ctrl → Transform)
    {g1 g2 : GrabRec}
    (hg1 : s.grabbedObjects Ctrl.one = some g1)
    (hg2 : s.grabbedObjects Ctrl.two = some g2)
    (hneb : g1.body ≠ g2.body) (hneo : g1.obj ≠ g2.obj) :
    (∀ c2, (resetObjects s poses).grabbedObjects c2 = none) ∧
    (∀ c2, (resetObjects s poses).controllerLastPosition c2 = none) ∧
    (∀ c2, (resetObjects s poses).controllerVelocity c2 = none) ∧
    (∀ i b it, s.physicsBodies.get? i = some b →
       s.initialTransforms.get? i = some it →
       ((resetObjects s poses).physicsBodies.get? i).map
           (fun b2 => (b2.position, b2.quaternion, b2.velocity,
             b2.angularVelocity, b2.awake)) =
         some (it.position, it.quaternion, V3J.zero, V3J.zero, true)) ∧
    (∀ i b, s.physicsBodies.get? i = some b →
       (i ≠ g1.body → i ≠ g2.body → b.type = BodyType.dynamic) →
       ((resetObjects s poses).physicsBodies.get? i).map Body.type =
         some BodyType.dynamic) ∧
    (∀ i m, s.visualMeshes.get? i = some m →
       (resetObjects s poses).visualMeshes.get? i =
         some (if i = g1.obj ∨ i = g2.obj
               then ⟨MParent.scene, worldOfMesh poses m⟩
               else m)) := by
  have hAg1 : (resetMid s).grabbedObjects Ctrl.one = some g1 := hg1
  have hB := detachHeld_some (resetMid s) Ctrl.one poses hAg1
  have hBg2 : (detachHeld (resetMid s) Ctrl.one poses
      ).grabbedObjects Ctrl.two = some g2 := by
    rw [hB]
    exact hg2
  have hC := detachHeld_some _ Ctrl.two poses hBg2
  have hfin := resetObjects_eq s poses
  refine ⟨fun _ => rfl, fun _ => rfl, fun _ => rfl, ?_, ?_, ?_⟩
  · -- snapshot fields: the detach loop only touches `type`
    intro i b it hbi hit
    have hreset : (resetBodies s.physicsBodies s.initialTransforms).get? i =
        some { b with position := it.position, quaternion := it.quaternion,
                      velocity := V3J.zero, angularVelocity := V3J.zero,
                      awake := true } := by
      rw [get?_resetBodies, hbi, hit]
    rw [hfin]
    show ((detachHeld (detachHeld (resetMid s) Ctrl.one poses) Ctrl.two poses
      ).physicsBodies.get? i).map _ = _
    rw [hC, hB]
    show ((setAt (setAt (resetBodies s.physicsBodies s.initialTransforms)
      g1.body _) g2.body _).get? i).map _ = _
    by_cases h2 : i = g2.body
    · subst h2
      rw [get?_setAt_self, get?_setAt_ne _ _ _ (fun he => hneb he.symm),
        hreset]
      rfl
    · rw [get?_setAt_ne _ _ _ h2]
      by_cases h1 : i = g1.body
      · subst h1
        rw [get?_setAt_self, hreset]
        rfl
      · rw [get?_setAt_ne _ _ _ h1, hreset]
        rfl
  · -- every body ends Dynamic
    intro i b hbi hdyn
    have hreset : ∃ bR, (resetBodies s.physicsBodies
        s.initialTransforms).get? i = some bR ∧ bR.type = b.type := by
      rw [get?_resetBodies, hbi]
      cases hit : s.initialTransforms.get? i with
      | none => exact ⟨b, rfl, rfl⟩
      | some it => exact ⟨_, rfl, rfl⟩
    obtain ⟨bR, hbR, hbRt⟩ := hreset
    rw [hfin]
    show ((detachHeld (detachHeld (resetMid s) Ctrl.one poses) Ctrl.two poses
      ).physicsBodies.get? i).map Body.type = _
    rw [hC, hB]
    show ((setAt (setAt (resetBodies s.physicsBodies s.initialTransforms)
      g1.body _) g2.body _).get? i).map Body.type = _
    by_cases h2 : i = g2.body
    · subst h2
      rw [get?_setAt_self, get?_setAt_ne _ _ _ (fun he => hneb he.symm),
        hbR]
      rfl
    · rw [get?_setAt_ne _ _ _ h2]
      by_cases h1 : i = g1.body
      · subst h1
        rw [get?_setAt_self, hbR]
        rfl
      · rw [get?_setAt_ne _ _ _ h1, hbR]
        show some bR.type = _
        rw [hbRt, hdyn h1 h2]
  · -- visuals: held entities re-attach to the scene at their current
    -- world transform, unheld visuals are untouched
    intro i m hmi
    rw [hfin]
    show (detachHeld (detachHeld (resetMid s) Ctrl.one poses) Ctrl.two poses
      ).visualMeshes.get? i = _
    rw [hC, hB]
    show (setAt (setAt s.visualMeshes g1.obj _) g2.obj _).get? i = _
    by_cases h2 : i = g2.obj
    · subst h2
      rw [get?_setAt_self, get?_setAt_ne _ _ _ (fun he => hneo he.symm), hmi]
      rw [if_pos (Or.inr rfl)]
      rfl
    · rw [get?_setAt_ne _ _ _ h2]
      by_cases h1 : i = g1.obj
      · subst h1
        rw [get?_setAt_self, hmi]
        rw [if_pos (Or.inl rfl)]
        rfl
      · rw [get?_setAt_ne _ _ _ h1, hmi]
        rw [if_neg (fun hor => hor.elim h1 h2)]

/-! ## Concrete instances -/

/-- A model tree with a direct mesh child, a non-mesh group, and a
grandchild mesh (uuids 0–3). -/
def demoTree : VNode := .mk 0 true [.mk 1 true [], .mk 2 false [.mk 3 true []]]

def demoTree2 : VNode := .mk 10 true [.mk 11 true []]

def demoTree3 : VNode := .mk 20 true []

def demoQ : Quat := ⟨0, 0, 0, 1⟩

def demoBody : Body := ⟨.dynamic, ⟨0, 0, 0⟩, demoQ, V3J.zero, V3J.zero, true⟩

def demoPose : Transform := ⟨⟨0, 0, 0⟩, demoQ⟩

def demoPoses : Ctrl → Transform := fun _ => demoPose

/-- Controller one at x = 2, controller two at the origin. -/
def demoPoses2 : Ctrl → Transform := fun c =>
  match c with
  | .one => ⟨⟨2, 0, 0⟩, demoQ⟩
  | .two => demoPose

/-- Idle state: one model, nothing held. -/
def demoState : State :=
  { modelTrees := [demoTree],
    physicsBodies := [demoBody],
    visualMeshes := [⟨.scene, demoPose⟩],
    initialTransforms := [⟨⟨0, 0, 0⟩, demoQ⟩],
    grabbedObjects := fun _ => none,
    controllerLastPosition := fun _ => none,
    controllerVelocity := fun _ => none,
    isTeleportAiming := false }

/-- Controller two holds entity/body 0; controller one is idle. -/
def demoStateTwoHolds : State :=
  { demoState with
    grabbedObjects := fun c =>
      match c with
      | Ctrl.one => none
      | Ctrl.two => some ⟨0, 0⟩ }

/-- Both controllers holding distinct entities (0 and 1), plus an unheld
dynamic entity 2. -/
def heldState : State :=
  { modelTrees := [demoTree, demoTree2, demoTree3],
    physicsBodies := [
      { demoBody with type := .kinematic },
      { demoBody with type := .kinematic, position := ⟨5, 0, 0⟩ },
      { demoBody with position := ⟨7, 8, 9⟩ }],
    visualMeshes := [
      ⟨.ctrl Ctrl.one, ⟨⟨1, 2, 3⟩, demoQ⟩⟩,
      ⟨.ctrl Ctrl.two, ⟨⟨4, 5, 6⟩, demoQ⟩⟩,
      ⟨.scene, ⟨⟨0, 0, 0⟩, demoQ⟩⟩],
    initialTransforms := [⟨⟨0, 0, 0⟩, demoQ⟩, ⟨⟨5, 0, 0⟩, demoQ⟩,
      ⟨⟨7, 8, 9⟩, demoQ⟩],
    grabbedObjects := fun c =>
      match c with
      | Ctrl.one => some ⟨0, 0⟩
      | Ctrl.two => some ⟨1, 1⟩,
    controllerLastPosition := fun _ => some ⟨0, 0, 0⟩,
    controllerVelocity := fun _ => some V3J.zero,
    isTeleportAiming := false }

/-- C4 counterexample: on a zero-`deltaTime` frame with an unmoved
holding controller, the velocity estimate becomes NaN componentwise (not
zero, as the specification requires), and a release then copies the NaN
velocity into the body. -/
theorem velocity_zero_dt_cex :
    (animate heldState 0 demoPoses (fun bs => bs) true).controllerVelocity
      Ctrl.one = some ⟨.nan, .nan, .nan⟩ ∧
    ((onGrabEnd (animate heldState 0 demoPoses (fun bs => bs) true) Ctrl.one
        demoPoses).physicsBodies.get? 0).map Body.velocity =
      some ⟨.nan, .nan, .nan⟩ ∧
    (⟨.nan, .nan, .nan⟩ : V3J) ≠ V3J.zero := by
  have h1 : (animate heldState 0 demoPoses (fun bs => bs)
      true).controllerVelocity Ctrl.one =
      some (jsVelocity (demoPoses Ctrl.one).pos ⟨0, 0, 0⟩ 0) := by
    rw [animate_true_eq]
    show (frameMid heldState 0 demoPoses (fun bs => bs)).controllerVelocity
      Ctrl.one = _
    exact frameMid_velocity heldState Ctrl.one 0 demoPoses (fun bs => bs)
      rfl rfl rfl
  have h3 := (release_velocity heldState Ctrl.one 0 demoPoses (fun bs => bs)
    rfl rfl rfl rfl).1
  have h4 : jsVelocity (demoPoses Ctrl.one).pos ⟨0, 0, 0⟩ 0 =
      ⟨.nan, .nan, .nan⟩ := jsVelocity_zero_dt ⟨0, 0, 0⟩
  exact ⟨h1.trans (by rw [h4]), h3.trans (by rw [h4]), by decide⟩

/-- Like `heldState`, but the unheld entity 2's visual transform has
drifted to (9,9,9) while its snapshot position is (7,8,9). -/
def resetCexState : State :=
  { heldState with
    visualMeshes := [
      ⟨.ctrl Ctrl.one, ⟨⟨1, 2, 3⟩, demoQ⟩⟩,
      ⟨.ctrl Ctrl.two, ⟨⟨4, 5, 6⟩, demoQ⟩⟩,
      ⟨.scene, ⟨⟨9, 9, 9⟩, demoQ⟩⟩] }

/-- C5 counterexample: immediately after `resetObjects`, entity 2's body
is back at its snapshot position (7,8,9) but its visual transform still
shows the drifted position (9,9,9) — `resetObjects` restores bodies
only, so the claim that every entity's visual transform equals its
snapshot after reset is false. -/
theorem reset_visual_not_snapshot_cex :
    ((resetObjects resetCexState demoPoses).visualMeshes.get? 2).map
      (fun m => m.localT.pos) = some ⟨9, 9, 9⟩ ∧
    ((resetObjects resetCexState demoPoses).initialTransforms.get? 2).map
      (fun it => it.position) = some ⟨7, 8, 9⟩ ∧
    ((resetObjects resetCexState demoPoses).physicsBodies.get? 2).map
      Body.position = some ⟨7, 8, 9⟩ ∧
    (⟨9, 9, 9⟩ : V3) ≠ ⟨7, 8, 9⟩ := by
  have hB := detachHeld_some (resetMid resetCexState) Ctrl.one demoPoses rfl
  have hBg2 : (detachHeld (resetMid resetCexState) Ctrl.one demoPoses
      ).grabbedObjects Ctrl.two = some ⟨1, 1⟩ := by
    rw [hB]
    rfl
  have hC := detachHeld_some _ Ctrl.two demoPoses hBg2
  have hfin := resetObjects_eq resetCexState demoPoses
  refine ⟨?_, ?_, ?_, by decide⟩
  · rw [hfin]
    show ((detachHeld (detachHeld (resetMid resetCexState) Ctrl.one demoPoses)
      Ctrl.two demoPoses).visualMeshes.get? 2).map _ = _
    rw [hC, hB]
    rw [get?_setAt_ne _ _ _ (by decide), get?_setAt_ne _ _ _ (by decide)]
    rfl
  · rw [hfin]
    show ((detachHeld (detachHeld (resetMid resetCexState) Ctrl.one demoPoses)
      Ctrl.two demoPoses).initialTransforms.get? 2).map _ = _
    rw [hC, hB]
    rfl
  · rw [hfin]
    show ((detachHeld (detachHeld (resetMid resetCexState) Ctrl.one demoPoses)
      Ctrl.two demoPoses).physicsBodies.get? 2).map _ = _
    rw [hC, hB]
    rw [get?_setAt_ne _ _ _ (by decide), get?_setAt_ne _ _ _ (by decide)]
    show ((resetBodies resetCexState.physicsBodies
      resetCexState.initialTransforms).get? 2).map Body.position = _
    rw [get?_resetBodies]
    rfl

/-! ## Witnesses -/

theorem grab_mutual_exclusion_witness :
    MutexInv (applyGrabStarts demoStateTwoHolds
      [⟨Ctrl.one, demoPoses, some [0]⟩]) ∧
    onGrabStart demoStateTwoHolds Ctrl.one demoPoses (some [0]) =
      demoStateTwoHolds := by
  have h := grab_mutual_exclusion demoStateTwoHolds
    (fun g1 g2 h1 _ => nomatch h1)
  exact ⟨h.1 [⟨Ctrl.one, demoPoses, some [0]⟩],
    h.2 Ctrl.one demoPoses [0] 0 0 ⟨0, 0⟩ (by decide) rfl rfl⟩

theorem frame_synchronization_witness :
    ((animate heldState 1 demoPoses (fun bs => bs) true).physicsBodies.get?
        0).map (fun b2 => (b2.position, b2.quaternion)) =
      some ((demoPoses Ctrl.one).pos, (demoPoses Ctrl.one).quat) ∧
    (animate heldState 1 demoPoses (fun bs => bs) true).visualMeshes.get? 2 =
      some ⟨.scene, ⟨⟨7, 8, 9⟩, demoQ⟩⟩ := by
  have h := frame_synchronization heldState 1 demoPoses (fun bs => bs)
  refine ⟨h.1 Ctrl.one ⟨0, 0⟩ ⟨0, 0, 0⟩ V3J.zero _ rfl rfl rfl rfl rfl ?_,
    (h.2 2 { demoBody with position := ⟨7, 8, 9⟩ } ⟨.scene, ⟨⟨0, 0, 0⟩, demoQ⟩⟩
      ?_ rfl (by decide) rfl).1⟩
  · intro g2 hg2 he
    cases hg2
    exact absurd he (by decide)
  · intro c2 g2 hg2
    cases c2 <;> cases hg2 <;> decide

theorem throw_velocity_witness :
    ((onGrabEnd (animate heldState 1 demoPoses2 (fun bs => bs) true) Ctrl.one
        demoPoses2).physicsBodies.get? 0).map Body.velocity =
      some ⟨.fin ((2 - 0) / 1), .fin ((0 - 0) / 1), .fin ((0 - 0) / 1)⟩ ∧
    ((onGrabEnd (animate heldState 1 demoPoses2 (fun bs => bs) true) Ctrl.one
        demoPoses2).physicsBodies.get? 0).map Body.angularVelocity =
      some V3J.zero :=
  throw_velocity_on_release heldState Ctrl.one 1 demoPoses2 (fun bs => bs)
    rfl rfl rfl rfl (by norm_num)

theorem velocity_estimate_unguarded_witness :
    (animate heldState 0 demoPoses (fun bs => bs) true).controllerVelocity
      Ctrl.one = some (jsVelocity (demoPoses Ctrl.one).pos ⟨0, 0, 0⟩ 0) ∧
    ((0 : ℚ) ≠ 0 → jsVelocity (demoPoses Ctrl.one).pos ⟨0, 0, 0⟩ 0 =
      ⟨.fin (((demoPoses Ctrl.one).pos.x - (0 : ℚ)) / 0),
       .fin (((demoPoses Ctrl.one).pos.y - (0 : ℚ)) / 0),
       .fin (((demoPoses Ctrl.one).pos.z - (0 : ℚ)) / 0)⟩) ∧
    ((0 : ℚ) = 0 → (demoPoses Ctrl.one).pos = ⟨0, 0, 0⟩ →
      jsVelocity (demoPoses Ctrl.one).pos ⟨0, 0, 0⟩ 0 = ⟨.nan, .nan, .nan⟩) :=
  velocity_estimate_unguarded heldState Ctrl.one 0 demoPoses (fun bs => bs)
    rfl rfl rfl

theorem resetObjects_spec_witness :
    (resetObjects heldState demoPoses).grabbedObjects Ctrl.one = none ∧
    ((resetObjects heldState demoPoses).physicsBodies.get? 0).map
        (fun b2 => (b2.position, b2.quaternion, b2.velocity,
          b2.angularVelocity, b2.awake)) =
      some (⟨0, 0, 0⟩, demoQ, V3J.zero, V3J.zero, true) ∧
    ((resetObjects heldState demoPoses).physicsBodies.get? 0).map Body.type =
      some BodyType.dynamic ∧
    (resetObjects heldState demoPoses).visualMeshes.get? 0 =
      some (if (0 : Nat) = (0 : Nat) ∨ (0 : Nat) = (1 : Nat)
            then ⟨MParent.scene,
              worldOfMesh demoPoses ⟨.ctrl Ctrl.one, ⟨⟨1, 2, 3⟩, demoQ⟩⟩⟩
            else ⟨.ctrl Ctrl.one, ⟨⟨1, 2, 3⟩, demoQ⟩⟩) := by
  have h := resetObjects_spec heldState demoPoses rfl rfl
    (by decide) (by decide)
  exact ⟨h.1 Ctrl.one,
    h.2.2.2.1 0 _ _ rfl rfl,
    h.2.2.2.2.1 0 _ rfl (fun h1 _ => absurd rfl h1),
    h.2.2.2.2.2 0 _ rfl⟩

theorem grabStart_success_witness :
    (onGrabStart demoState Ctrl.one demoPoses (some [3, 2, 0])).grabbedObjects
      Ctrl.one = some ⟨0, 0⟩ ∧
    (onGrabStart demoState Ctrl.one demoPoses
        (some [3, 2, 0])).physicsBodies.get? 0 =
      some { demoBody with type := BodyType.kinematic, velocity := V3J.zero,
                           angularVelocity := V3J.zero } ∧
    (onGrabStart demoState Ctrl.one demoPoses
        (some [3, 2, 0])).visualMeshes.get? 0 =
      some ⟨MParent.ctrl Ctrl.one,
        Transform.comp (Transform.inv (demoPoses Ctrl.one))
          (worldOfMesh demoPoses ⟨.scene, demoPose⟩)⟩ ∧
    worldOfMesh demoPoses
      ⟨MParent.ctrl Ctrl.one,
        Transform.comp (Transform.inv (demoPoses Ctrl.one))
          (worldOfMesh demoPoses ⟨.scene, demoPose⟩)⟩ =
      worldOfMesh demoPoses ⟨.scene, demoPose⟩ ∧
    (onGrabStart demoState Ctrl.one demoPoses
        (some [3, 2, 0])).controllerLastPosition Ctrl.one =
      some (demoPoses Ctrl.one).pos ∧
    (onGrabStart demoState Ctrl.one demoPoses
        (some [3, 2, 0])).controllerVelocity Ctrl.one = some V3J.zero :=
  grabStart_success demoState Ctrl.one demoPoses [3, 2, 0] (by decide) rfl
    (by decide) (by decide) rfl rfl
    (by norm_num [demoPoses, demoPose, demoQ, Quat.normSq])

theorem grabEnd_postcondition_witness :
    (onGrabEnd heldState Ctrl.one demoPoses).visualMeshes.get? 0 =
      some ⟨MParent.scene,
        worldOfMesh demoPoses ⟨.ctrl Ctrl.one, ⟨⟨1, 2, 3⟩, demoQ⟩⟩⟩ ∧
    worldOfMesh demoPoses
      ⟨MParent.scene,
        worldOfMesh demoPoses ⟨.ctrl Ctrl.one, ⟨⟨1, 2, 3⟩, demoQ⟩⟩⟩ =
      worldOfMesh demoPoses ⟨.ctrl Ctrl.one, ⟨⟨1, 2, 3⟩, demoQ⟩⟩ ∧
    (onGrabEnd heldState Ctrl.one demoPoses).physicsBodies.get? 0 =
      some { { demoBody with type := BodyType.kinematic } with
        type := BodyType.dynamic, awake := true, velocity := V3J.zero } ∧
    (onGrabEnd heldState Ctrl.one demoPoses).grabbedObjects Ctrl.one = none ∧
    (onGrabEnd heldState Ctrl.one demoPoses).controllerLastPosition Ctrl.one
      = none ∧
    (onGrabEnd heldState Ctrl.one demoPoses).controllerVelocity Ctrl.one
      = none :=
  grabEnd_postcondition heldState Ctrl.one demoPoses rfl rfl rfl rfl

theorem intersection_resolution_witness :
    resolveChain [demoTree, demoTree2]
      (([VNode.mk 3 true [], VNode.mk 2 false [VNode.mk 3 true []],
        demoTree]).map VNode.uuid) = some (0, 0) ∧
    resolveChain [demoTree, demoTree2] [99] = none ∧
    onGrabStart demoState Ctrl.one demoPoses none = demoState := by
  have h := intersection_resolution [demoTree, demoTree2]
    (by unfold WFreg; decide)
  refine ⟨h.1 0 demoTree _ rfl ?_, h.2.1 [99] ?_, h.2.2 demoState Ctrl.one
    demoPoses⟩
  · exact Desc.step (Desc.step Desc.refl
      (List.Mem.tail _ (List.Mem.head _))) (List.Mem.head _)
  · intro u hu
    have hu99 : u = 99 := List.mem_singleton.mp hu
    subst hu99
    decide

theorem reentrant_grabStart_noop_witness :
    heldState.grabbedObjects Ctrl.one = some ⟨0, 0⟩ ∧
    onGrabStart heldState Ctrl.one demoPoses (some [10]) = heldState :=
  ⟨rfl, reentrant_grabStart_noop heldState Ctrl.one demoPoses (some [10]) rfl⟩

theorem sessionEnd_witness :
    (∀ c2, (sessionEnd heldState).grabbedObjects c2 = none) ∧
    (∀ c2, (sessionEnd heldState).controllerLastPosition c2 = none) ∧
    (∀ c2, (sessionEnd heldState).controllerVelocity c2 = none) ∧
    (sessionEnd heldState).physicsBodies = heldState.physicsBodies ∧
    (sessionEnd heldState).visualMeshes = heldState.visualMeshes ∧
    ((sessionEnd heldState).physicsBodies.get? 0).map Body.type =
      some BodyType.kinematic ∧
    ((sessionEnd heldState).physicsBodies.get? 0).map Body.velocity =
      some V3J.zero ∧
    ((sessionEnd heldState).physicsBodies.get? 0).map Body.angularVelocity =
      some V3J.zero ∧
    ((sessionEnd heldState).visualMeshes.get? 0).map MeshNode.parent =
      some (MParent.ctrl Ctrl.one) :=
  sessionEnd_leaves_grab_artifacts heldState Ctrl.one rfl rfl rfl rfl rfl

end Gallery
